import Mathlib

/-!
Verification of the listing-builder core of `src/app.py`:
the profit calculator (`calc_profit`, `flip_score`, `flip_badge`) and the
title/description builder (`build_title_variants`, `platform_description`,
`build_listing_payload`).

Numeric code is embedded over `ℚ` (exact rationals standing for the Python
floats); text is embedded as `List Char` (one entry per Unicode code point,
matching Python's `str` indexing and `len`).
-/

namespace App

/-- Character strings, as lists of code points (Python `str`). -/
abbrev Str := List Char

/-! ## Profit calculator (`src/app.py`, lines 701–763) -/

/-- Result record of `calc_profit` (the dict returned at lines 716–723). -/
structure ProfitResult where
  ebay_fee : ℚ
  processing_fee : ℚ
  total_fees : ℚ
  total_cost : ℚ
  profit : ℚ
  margin_pct : ℚ

/-- `calc_profit` (lines 701–723), translated verbatim: no clamping is applied
to any argument, and the margin guard is `sale_price > 0`. -/
def calc_profit (sale_price cogs ebay_fee_pct processing_pct processing_fixed
    shipping_cost packaging_cost : ℚ) : ProfitResult :=
  let ebay_fee := sale_price * (ebay_fee_pct / 100)
  let processing_fee := sale_price * (processing_pct / 100) + processing_fixed
  let total_fees := ebay_fee + processing_fee
  let total_cost := cogs + shipping_cost + packaging_cost + total_fees
  let profit := sale_price - total_cost
  let margin := if sale_price > 0 then profit / sale_price * 100 else 0
  ⟨ebay_fee, processing_fee, total_fees, total_cost, profit, margin⟩

/-- Python `round(x)` to an integer: round-half-to-even (banker's rounding),
on exact rationals. -/
def pyRound (x : ℚ) : ℤ :=
  let f := ⌊x⌋
  let r := x - f
  if r < 1/2 then f
  else if r > 1/2 then f + 1
  else if f % 2 = 0 then f else f + 1

/-- Python `round(x, 1)`: round to one decimal place, half to even. -/
def round1 (x : ℚ) : ℚ := (pyRound (x * 10) : ℚ) / 10

/-- The accumulation of `score` in `flip_score` (lines 738–752): baseline 5.0
and the seven gated adjustments, before the final clamp-and-round. -/
def flip_raw (profit margin_pct sale_price : ℚ) : ℚ :=
  let score : ℚ := 5
  let score := if profit ≥ 25 then score + 2 else score
  let score := if profit ≥ 50 then score + 3 else score
  let score := if margin_pct ≥ 40 then score + 2 else score
  let score := if margin_pct ≥ 60 then score + 3 else score
  let score := if profit < 10 then score - 3 else score
  let score := if margin_pct < 20 then score - 3 else score
  let score := if sale_price > 200 ∧ profit < 20 then score - 2 else score
  score

/-- `flip_score` (lines 737–753): the accumulated score, then
`max(1.0, min(10.0, round(score, 1)))` (line 753). -/
def flip_score (profit margin_pct sale_price : ℚ) : ℚ :=
  max 1 (min 10 (round1 (flip_raw profit margin_pct sale_price)))

/-- `flip_badge` (lines 756–763).  The returned strings carry the decorative
prefix characters present in the source file (code points U+00E2 U+009D U+008C
etc., as the file's bytes decode); the qualitative label follows a space. -/
def flip_badge (score : ℚ) : Str :=
  if score ≤ 3 then "â\u009D\u008C Bad Flip".toList
  else if score ≤ 6 then "â\u009A\u00A0ï¸\u008F Risky".toList
  else if score ≤ 8 then "â\u009C\u0085 Good Flip".toList
  else "ð\u009F\u0094¥ Great Flip".toList

/-- The flip-score heuristic as worded in the specification: same baseline and
gated adjustments, with the final score clamped to `[1, 10]` and then rounded
to one decimal place (the spec sentence orders clamping before rounding). -/
def flipScoreSpec (profit margin_pct sale_price : ℚ) : ℚ :=
  round1 (max 1 (min 10 (flip_raw profit margin_pct sale_price)))

/-! ## Text layer: primitive Python string operations -/

/-- Python's whitespace class (`str.strip`, regex `\s`): ASCII whitespace,
the C0 separators, NEL, NBSP and the Unicode space characters. -/
def pyIsSpace (c : Char) : Bool :=
  c ∈ [' ', '\t', '\n', '\x0b', '\x0c', '\r',
       '\x1c', '\x1d', '\x1e', '\x1f', '\x85', ' ',
       ' ', ' ', ' ', ' ', ' ', ' ', ' ',
       ' ', ' ', ' ', ' ', ' ',
       ' ', ' ', ' ', ' ', '　']

/-- Python `str.lstrip()`. -/
def pyLStrip (s : Str) : Str := s.dropWhile pyIsSpace

/-- Python `str.rstrip()`. -/
def pyRStrip (s : Str) : Str := (s.reverse.dropWhile pyIsSpace).reverse

/-- Python `str.strip()`. -/
def pyStrip (s : Str) : Str := pyRStrip (pyLStrip s)

/-- `re.sub(r"\s+", " ", s)`: every maximal whitespace run becomes one space
(a run emits its single space at its last character). -/
def collapseWs : Str → Str
  | [] => []
  | [c] => if pyIsSpace c then [' '] else [c]
  | c :: d :: rest =>
    if pyIsSpace c then
      if pyIsSpace d then collapseWs (d :: rest)
      else ' ' :: collapseWs (d :: rest)
    else c :: collapseWs (d :: rest)

/-- `_clean_token` (lines 842–845): strip, then collapse inner whitespace. -/
def clean_token (s : Str) : Str := collapseWs (pyStrip s)

/-- The ASCII fragment of Python's regex word class `\w` (letters, digits,
underscore).  Non-ASCII word characters of Python's Unicode tables are not
modelled; every input exercised here is ASCII. -/
def isWordChar (c : Char) : Bool :=
  ('a' ≤ c && c ≤ 'z') || ('A' ≤ c && c ≤ 'Z') || ('0' ≤ c && c ≤ '9') || c == '_'

/-- ASCII lowering, the fragment of Python `str.lower()` used here. -/
def asciiLower (c : Char) : Char :=
  if 'A' ≤ c ∧ c ≤ 'Z' then Char.ofNat (c.toNat + 32) else c

/-- Python `str.lower()` on the ASCII fragment. -/
def lowerStr (s : Str) : Str := s.map asciiLower

/-- Python `"sep".join(parts)`. -/
def pyJoin (sep : Str) : List Str → Str
  | [] => []
  | [x] => x
  | x :: y :: rest => x ++ sep ++ pyJoin sep (y :: rest)

/-- Python `s or t` for strings: `t` when `s` is empty. -/
def pyOr (s t : Str) : Str := if s = [] then t else s

/-- Line-break characters recognised by Python `str.splitlines()`
(besides the combined `\r\n`). -/
def isLineBreak (c : Char) : Bool :=
  c ∈ ['\n', '\r', '\x0b', '\x0c', '\x1c', '\x1d', '\x1e', '\x85',
       ' ', ' ']

/-- Worker for `pySplitlines`, accumulating the current line. -/
def splitlinesAux (cur : Str) : Str → List Str
  | [] => if cur = [] then [] else [cur]
  | '\r' :: '\n' :: rest => cur :: splitlinesAux [] rest
  | c :: rest =>
    if isLineBreak c then cur :: splitlinesAux [] rest
    else splitlinesAux (cur ++ [c]) rest

/-- Python `str.splitlines()`. -/
def pySplitlines (s : Str) : List Str := splitlinesAux [] s

/-- Python `s.replace("**", "")`: remove non-overlapping `**` pairs left to
right (as `platform_description` does on the parts/repair note). -/
def replace_double_star : Str → Str
  | '*' :: '*' :: rest => replace_double_star rest
  | c :: rest => c :: replace_double_star rest
  | [] => []

/-- Decimal digits worker for `natChars`; `fuel` only bounds the recursion
depth (any `fuel > log10 n` gives the exact digits). -/
def natCharsF : Nat → Nat → Str
  | 0, _ => []
  | fuel + 1, n =>
    if n < 10 then [Char.ofNat (48 + n)]
    else natCharsF fuel (n / 10) ++ [Char.ofNat (48 + n % 10)]

/-- Python `str(n)` for a natural number. -/
def natChars (n : Nat) : Str := natCharsF (n + 1) n

/-- Python `str(n)` for an integer. -/
def intChars (n : Int) : Str :=
  if n < 0 then '-' :: natChars n.natAbs else natChars n.toNat

/-! ## Title rules (`src/app.py`, lines 826–958) -/

/-- `FLUFF_WORDS` (lines 827–839). -/
def FLUFF_WORDS : List Str :=
  ["great", "amazing", "awesome", "nice", "wow", "look", "fast", "shipping",
   "must", "see", "hot"].map String.toList

/-- Worker for `wordRuns`: `run` is the (non-empty) run being accumulated and
`w` its word/non-word class. -/
def runsAux (run : Str) (w : Bool) : Str → List Str
  | [] => [run]
  | c :: rest =>
    if isWordChar c == w then runsAux (run ++ [c]) w rest
    else run :: runsAux [c] (isWordChar c) rest

/-- The alternating word/non-word runs of `re.split(r"(\W+)", text)` (empty
artifact tokens dropped; they do not change the rejoined result). -/
def wordRuns : Str → List Str
  | [] => []
  | c :: rest => runsAux [c] (isWordChar c) rest

/-- `_strip_fluff` (lines 848–856): drop whole-word tokens whose lower-case
form is in `FLUFF_WORDS`, rejoin, and clean. -/
def strip_fluff (s : Str) : Str :=
  clean_token (List.flatten ((wordRuns s).map (fun w =>
    if w.all isWordChar ∧ lowerStr w ∈ FLUFF_WORDS then [] else w)))

/-- `\b` after a match: true at end of string or before a non-word char. -/
def atWordBoundary : Str → Bool
  | [] => true
  | d :: _ => !(isWordChar d)

/-- Digit class of regex `\d` on ASCII. -/
def isAsciiDigit (c : Char) : Bool := '0' ≤ c && c ≤ '9'

/-- Match `\s*(inches|inch)\b` (case-insensitive) at the front of `rest`,
returning how many characters it consumes.  The alternation tries `inches`
before `inch`, as `re` does. -/
def inchTail (rest : Str) : Option Nat :=
  let sp := (rest.takeWhile pyIsSpace).length
  let rest2 := rest.drop sp
  if lowerStr (rest2.take 6) = "inches".toList ∧ atWordBoundary (rest2.drop 6) then
    some (sp + 6)
  else if lowerStr (rest2.take 4) = "inch".toList ∧ atWordBoundary (rest2.drop 4) then
    some (sp + 4)
  else none

/-- The scan of `re.sub(r"\b(\d{1,2})\s*(inches|inch)\b", r'\1"', s, IGNORECASE)`
(line 861).  `prevW` records whether the previous character of the original
string is a word character (for the leading `\b`); `\d{1,2}` is greedy with
backtracking, so a two-digit match is tried before a one-digit match. -/
def inchScanF : Nat → Bool → Str → Str
  | 0, _, _ => []
  | _ + 1, _, [] => []
  | fuel + 1, prevW, c :: rest =>
    if !prevW && isAsciiDigit c then
      match (match rest with
             | d :: rest' =>
               if isAsciiDigit d then
                 (inchTail rest').map (fun k => ([c, d, '"'], 1 + k))
               else none
             | [] => none) <|> (inchTail rest).map (fun k => ([c, '"'], k)) with
      | some (rep, k) => rep ++ inchScanF fuel true (rest.drop k)
      | none => c :: inchScanF fuel (isWordChar c) rest
    else c :: inchScanF fuel (isWordChar c) rest

/-- The scan itself; every step consumes at least one input character, so
fuel equal to the string length is exact. -/
def inchScan (prevW : Bool) (s : Str) : Str := inchScanF s.length prevW s

/-- `_short_featureize` (lines 859–862): clean, then abbreviate
`N inches`/`N inch` to `N"`. -/
def short_featureize (s : Str) : Str := inchScan false (clean_token s)

/-- The accumulation loop of `_keywords_from_features` (lines 868–873). -/
def kwLoop (max_k : Nat) : List Str → List Str → List Str
  | [], keep => keep
  | ln :: rest, keep =>
    let ln := short_featureize (strip_fluff ln)
    let keep := if 2 ≤ ln.length ∧ ln.length ≤ 26 then keep ++ [ln] else keep
    if max_k ≤ keep.length then keep else kwLoop max_k rest keep

/-- `_keywords_from_features` (lines 865–874). -/
def keywords_from_features (features_lines : Str) (max_k : Nat) : List Str :=
  let lines := ((pySplitlines features_lines).map pyStrip).filter (· ≠ [])
  kwLoop max_k (lines.take 12) []

/-- The `while` loop of `_fit_to_limit` (lines 887–889): pop trailing parts
until the joined, cleaned title fits the limit (or nothing is left). -/
def popLoopF (limit : Nat) : Nat → List Str → List Str
  | 0, l => l
  | fuel + 1, l =>
    if l ≠ [] ∧ limit < (clean_token (pyJoin [' '] l)).length then
      popLoopF limit fuel l.dropLast
    else l

/-- The loop itself; each iteration drops one part, so fuel equal to the
list length is exact. -/
def popLoop (limit : Nat) (l : List Str) : List Str := popLoopF limit l.length l

/-- `_fit_to_limit` (lines 877–895). -/
def fit_to_limit (parts : List Str) (limit : Nat) : Str :=
  let parts := (parts.map clean_token).filter (· ≠ [])
  if parts = [] then []
  else
    let title := strip_fluff (clean_token (pyJoin [' '] parts))
    if title.length ≤ limit then title
    else
      let trimmed := popLoop limit parts
      let title2 := clean_token (pyJoin [' '] trimmed)
      if title2.length ≤ limit then title2
      else pyRStrip (title2.take limit)

/-- The candidate loop of `build_title_variants` (lines 931–953): fit each
candidate to its label's limit, clean, skip empties, de-duplicate by
lower-cased text, and stop at `max_variants` entries. -/
def variantLoop (ebay_limit max_variants : Nat) :
    List (Str × List Str) → List Str → List (Str × Str) → List (Str × Str)
  | [], _, out => out
  | (label, parts) :: rest, seen, out =>
    let limit := if label = "short".toList then 60
      else if label = "super short".toList then 45 else ebay_limit
    let t := clean_token (fit_to_limit parts limit)
    if t = [] then variantLoop ebay_limit max_variants rest seen out
    else
      let key := lowerStr t
      if key ∈ seen then variantLoop ebay_limit max_variants rest seen out
      else
        let out' := out ++ [(label, t)]
        if max_variants ≤ out'.length then out'
        else variantLoop ebay_limit max_variants rest (seen ++ [key]) out'

/-- `build_title_variants` (lines 898–958). -/
def build_title_variants (platform brand item model condition features_lines : Str)
    (max_variants : Nat) : List (Str × Str) :=
  let platform_l := lowerStr (pyStrip platform)
  let ebay_limit := if platform_l = "ebay".toList then 80 else 90
  let b := strip_fluff (clean_token brand)
  let it := strip_fluff (clean_token item)
  let m := strip_fluff (clean_token model)
  let cond := clean_token condition
  let kws := keywords_from_features features_lines 2
  let candidates : List (Str × List Str) :=
    [("eBay-fit".toList, [b, it, m] ++ kws)] ++
    (match kws with
     | k :: _ => [("feature-first".toList, [b, it, m, k])]
     | [] => []) ++
    [("short".toList, [b, it, m]), ("super short".toList, [b, it])] ++
    (if cond ≠ [] ∧ cond ≠ "For parts/repair".toList then
       [("condition".toList, [b, it, m, cond])]
     else if cond = "For parts/repair".toList then
       [("parts/repair".toList, [b, it, m, "For Parts/Repair".toList])]
     else [])
  let out := variantLoop ebay_limit max_variants candidates [] []
  if out = [] then
    [("eBay-fit".toList,
      pyOr (fit_to_limit [b, it, m] ebay_limit) "Item for sale".toList)]
  else out

/-! ## Listing payload (`src/app.py`, lines 769–777 and 961–1143) -/

/-- `CONDITION_TEMPLATES` (lines 769–777). -/
def CONDITION_TEMPLATES (c : Str) : Option Str :=
  if c = "New".toList then
    some "Brand new, unused. Ships fast.".toList
  else if c = "Open box".toList then
    some "Open box item. Tested/inspected. Ships fast.".toList
  else if c = "Used - Like New".toList then
    some "Lightly used. Clean and fully functional. Ships fast.".toList
  else if c = "Used - Good".toList then
    some "Normal wear from use. Fully functional unless noted. Ships fast.".toList
  else if c = "Used - Fair".toList then
    some "Noticeable wear. Fully functional unless noted. Please review photos/notes.".toList
  else if c = "Used - Poor".toList then
    some "Heavy wear. May have issues. Please read notes carefully.".toList
  else if c = "For parts/repair".toList then
    some "For parts/repair. Sold as-is. No returns.".toList
  else none

/-- The blank-field placeholder of the eBay branch (the file's code points
U+00E2 U+0080 U+0094, an em dash as the bytes decode). -/
def dashChars : Str := "â\u0080\u0094".toList

/-- The bullet prefix of the Facebook/OfferUp branches (the file's code
points U+00C2 U+0080 U+00C2 U+00A2 and a space). -/
def bulletChars : Str := "Â\u0080Â¢ ".toList

/-- `platform_description` (lines 961–1072). -/
def platform_description (platform title condition category : Str) (qty : Int)
    (features defects : List Str)
    (seller_city pickup_line shipping_line handling_time returns_line
      parts_repair_note : Str) : Str :=
  let platform := lowerStr (pyStrip platform)
  let feat_bul :=
    if features ≠ [] then pyJoin ['\n'] (features.map (fun x => "- ".toList ++ x))
    else []
  let def_bul :=
    if defects ≠ [] then pyJoin ['\n'] (defects.map (fun x => "- ".toList ++ x))
    else []
  if platform = "ebay".toList then
    let key_features_block :=
      if feat_bul ≠ [] then "### Key features\n".toList ++ feat_bul ++ "\n\n".toList
      else []
    let notes_block :=
      if def_bul ≠ [] then "### Notes / defects\n".toList ++ def_bul ++ "\n\n".toList
      else []
    let parts_block :=
      if parts_repair_note ≠ [] then parts_repair_note ++ ['\n'] else []
    pyStrip (
      "## ".toList ++ title ++ "\n\n".toList ++
      key_features_block ++ notes_block ++
      "**Condition:** ".toList ++ condition ++ ['\n'] ++
      "**Quantity:** ".toList ++ intChars qty ++ ['\n'] ++
      "**Category:** ".toList ++ pyOr category dashChars ++ "\n\n".toList ++
      "**Location:** ".toList ++ pyOr seller_city dashChars ++ ['\n'] ++
      "**Pickup:** ".toList ++ pyOr pickup_line dashChars ++ ['\n'] ++
      "**Shipping:** ".toList ++ pyOr shipping_line dashChars ++ ['\n'] ++
      "**Handling time:** ".toList ++ pyOr handling_time dashChars ++ ['\n'] ++
      "**Returns:** ".toList ++ pyOr returns_line dashChars ++ "\n\n".toList ++
      parts_block)
  else if platform = "facebook marketplace".toList ∨ platform = "facebook".toList then
    let lines : List Str :=
      [title, []] ++
      ["Condition: ".toList ++ condition, "Qty: ".toList ++ intChars qty] ++
      (if category ≠ [] then ["Category: ".toList ++ category] else []) ++
      [[]] ++
      (if features ≠ [] then
        "Features:".toList :: features.map (fun x => bulletChars ++ x) ++ [[]]
       else []) ++
      (if defects ≠ [] then
        "Notes/defects:".toList :: defects.map (fun x => bulletChars ++ x) ++ [[]]
       else []) ++
      ["Pickup: ".toList ++ pyOr pickup_line ['-'],
       "Shipping: ".toList ++ pyOr shipping_line ['-'],
       "Location: ".toList ++ pyOr seller_city ['-'],
       "Returns: ".toList ++ pyOr returns_line ['-']] ++
      (if parts_repair_note ≠ [] then [[], replace_double_star parts_repair_note]
       else [])
    pyStrip (pyJoin ['\n'] lines)
  else if platform = "mercari".toList then
    let lines : List Str :=
      [title, []] ++
      (if features ≠ [] then
        "Details:".toList :: features.map (fun x => "- ".toList ++ x) ++ [[]]
       else []) ++
      (if defects ≠ [] then
        "Condition notes:".toList :: defects.map (fun x => "- ".toList ++ x) ++ [[]]
       else []) ++
      ["Condition: ".toList ++ condition] ++
      (if parts_repair_note ≠ [] then [replace_double_star parts_repair_note]
       else [])
    pyStrip (pyJoin ['\n'] lines)
  else if platform = "offerup".toList then
    let lines : List Str :=
      [title, []] ++
      ["Condition: ".toList ++ condition] ++
      (if features ≠ [] then
        [] :: "Highlights:".toList :: features.map (fun x => bulletChars ++ x)
       else []) ++
      (if defects ≠ [] then
        [] :: "Notes:".toList :: defects.map (fun x => bulletChars ++ x)
       else []) ++
      [[]] ++
      ["Pickup: ".toList ++ pyOr pickup_line ['-'],
       "Location: ".toList ++ pyOr seller_city ['-']] ++
      (if parts_repair_note ≠ [] then [[], replace_double_star parts_repair_note]
       else [])
    pyStrip (pyJoin ['\n'] lines)
  else
    pyStrip (title ++ "\n\nCondition: ".toList ++ condition ++ "\n\n".toList ++
      feat_bul ++ "\n\n".toList ++ def_bul)

/-- The parts/repair disclaimer injected by `build_listing_payload`
(lines 1114–1117). -/
def PARTS_NOTE : Str :=
  ("**Parts/repair note:** Sold as-is for parts/repair. " ++
   "May have issues not listed. Please ask questions before purchase.").toList

/-- The common tail of the parts/repair disclaimer: both the bold (eBay) and
the star-stripped (other platforms) renderings end in this sentence triple. -/
def MARKER : Str :=
  ("Sold as-is for parts/repair. " ++
   "May have issues not listed. Please ask questions before purchase.").toList

/-- The dict returned by `build_listing_payload` (lines 1135–1143). -/
structure ListingPayload where
  platform : Str
  title : Str
  title_variants : List (Str × Str)
  desc : Str
  features : List Str
  defects : List Str
  parts_repair_note : Str

/-- `build_listing_payload` (lines 1075–1143). -/
def build_listing_payload (platform brand item model condition category : Str)
    (qty : Int) (features_lines defects_lines seller_city pickup_line
      shipping_line handling_time returns_line : Str)
    (include_parts_repair_note use_condition_template : Bool) : ListingPayload :=
  let features := ((pySplitlines features_lines).map pyStrip).filter (· ≠ [])
  let defects := ((pySplitlines defects_lines).map pyStrip).filter (· ≠ [])
  let defects :=
    match CONDITION_TEMPLATES condition with
    | some tmpl =>
      if use_condition_template ∧ tmpl ≠ [] ∧ tmpl ∉ defects then defects ++ [tmpl]
      else defects
    | none => defects
  let title_variants := build_title_variants platform brand item model condition
    features_lines 6
  let chosen_title :=
    match title_variants with
    | (_, t) :: _ => t
    | [] => "Item for sale".toList
  let parts_repair_note :=
    if include_parts_repair_note ∧ condition = "For parts/repair".toList then
      PARTS_NOTE
    else []
  let desc := platform_description platform chosen_title condition category qty
    features defects seller_city pickup_line shipping_line handling_time
    returns_line parts_repair_note
  ⟨platform, chosen_title, title_variants, desc, features, defects,
    parts_repair_note⟩

/-- The per-label limit chosen inside the candidate loop (lines 934–939). -/
def labelBudget (ebay_limit : Nat) (label : Str) : Nat :=
  if label = "short".toList then 60
  else if label = "super short".toList then 45 else ebay_limit

/-- No non-empty suffix of `p` is a prefix of `M` (decidable span check). -/
def noSpanB (p M : Str) : Bool :=
  (List.range p.length).all (fun i => !((p.drop i).isPrefixOf M))

/-! ### Helper lemmas for the profit calculator -/

/-- Integer twin of `flip_raw`: same gates, values in `ℤ`. -/
def flipRawZ (profit margin_pct sale_price : ℚ) : ℤ :=
  let score : ℤ := 5
  let score := if profit ≥ 25 then score + 2 else score
  let score := if profit ≥ 50 then score + 3 else score
  let score := if margin_pct ≥ 40 then score + 2 else score
  let score := if margin_pct ≥ 60 then score + 3 else score
  let score := if profit < 10 then score - 3 else score
  let score := if margin_pct < 20 then score - 3 else score
  let score := if sale_price > 200 ∧ profit < 20 then score - 2 else score
  score

/-- The raw (pre-clamp, pre-round) flip score is always an integer: every
adjustment adds or subtracts a whole number from the integer baseline 5. -/
lemma flip_raw_eq_intCast (p m s : ℚ) : flip_raw p m s = (flipRawZ p m s : ℚ) := by
  unfold flip_raw flipRawZ
  push_cast [apply_ite (fun z : ℤ => (z : ℚ))]
  norm_num

/-- `round1` is the identity on integers. -/
lemma round1_intCast (n : ℤ) : round1 (n : ℚ) = n := by
  have h : ((n : ℚ) * 10) = ((n * 10 : ℤ) : ℚ) := by push_cast; ring
  simp only [round1, pyRound, h, Int.floor_intCast, sub_self]
  norm_num

/-- Clamping an integer to `[1, 10]` and rounding commute, and the result is
within `[1, 10]`. -/
lemma clamp_round_int (n : ℤ) :
    max 1 (min 10 (round1 (n : ℚ))) = round1 (max 1 (min 10 (n : ℚ))) ∧
      1 ≤ max 1 (min 10 (round1 (n : ℚ))) ∧ max 1 (min 10 (round1 (n : ℚ))) ≤ 10 := by
  have hmm : max 1 (min 10 ((n : ℚ))) = ((max 1 (min 10 n) : ℤ) : ℚ) := by
    push_cast
    rfl
  refine ⟨?_, le_max_left _ _, max_le (by norm_num) (min_le_left _ _)⟩
  rw [round1_intCast, hmm, round1_intCast]

/-! ### Claims about the profit calculator -/

/-- C1: for every input (over the spec's domain of non-negative prices),
`calc_profit` returns exactly the spec's fee model: platform fee, processing
fee, fee total, total cost, profit, and margin = profit / salePrice * 100
except margin = 0 at salePrice = 0. -/
theorem C1_calc_profit_fee_model (sale_price cogs ebay_fee_pct processing_pct
    processing_fixed shipping_cost packaging_cost : ℚ) :
    (let r := calc_profit sale_price cogs ebay_fee_pct processing_pct
      processing_fixed shipping_cost packaging_cost
    r.ebay_fee = sale_price * (ebay_fee_pct / 100) ∧
    r.processing_fee = sale_price * (processing_pct / 100) + processing_fixed ∧
    r.total_fees = r.ebay_fee + r.processing_fee ∧
    r.total_cost = cogs + shipping_cost + packaging_cost + r.total_fees ∧
    r.profit = sale_price - r.total_cost ∧
    (0 ≤ sale_price →
      r.margin_pct = if sale_price = 0 then 0
        else r.profit / sale_price * 100)) := by
  refine ⟨rfl, rfl, rfl, rfl, rfl, ?_⟩
  intro h
  rcases h.eq_or_lt with h0 | h0
  · simp [calc_profit, ← h0]
  · simp [calc_profit, h0, h0.ne']

/-- Witness for C1 at a concrete positive price. -/
theorem C1_calc_profit_fee_model_witness :
    (0:ℚ) ≤ 2 ∧
      (calc_profit 2 1 0 0 0 0 0).margin_pct =
        if (2:ℚ) = 0 then 0 else (calc_profit 2 1 0 0 0 0 0).profit / 2 * 100 :=
  ⟨by norm_num, (C1_calc_profit_fee_model 2 1 0 0 0 0 0).2.2.2.2.2 (by norm_num)⟩

/-- C2 counterexample: `calc_profit` does not clamp its inputs. At
salePrice = -10 (other inputs non-negative) the result differs from the
result on the componentwise-clamped vector. -/
theorem C2_no_clamping_counterexample :
    calc_profit (-10) 5 10 3 (3/10) 4 1 ≠
      calc_profit (max 0 (-10)) (max 0 5) (max 0 10) (max 0 3) (max 0 (3/10))
        (max 0 4) (max 0 1) := by
  intro h
  have hp := congrArg ProfitResult.profit h
  simp only [calc_profit] at hp
  norm_num at hp

/-- C2 amended: `calc_profit` applies its fee formula to the inputs as given,
with no clamping; the claimed equality with the componentwise-clamped vector
holds exactly when clamping is the identity, i.e. when every input is already
non-negative. -/
theorem C2_amended_clamp_identity (sale_price cogs ebay_fee_pct processing_pct
    processing_fixed shipping_cost packaging_cost : ℚ)
    (h1 : 0 ≤ sale_price) (h2 : 0 ≤ cogs) (h3 : 0 ≤ ebay_fee_pct)
    (h4 : 0 ≤ processing_pct) (h5 : 0 ≤ processing_fixed)
    (h6 : 0 ≤ shipping_cost) (h7 : 0 ≤ packaging_cost) :
    calc_profit sale_price cogs ebay_fee_pct processing_pct processing_fixed
        shipping_cost packaging_cost =
      calc_profit (max 0 sale_price) (max 0 cogs) (max 0 ebay_fee_pct)
        (max 0 processing_pct) (max 0 processing_fixed) (max 0 shipping_cost)
        (max 0 packaging_cost) := by
  rw [max_eq_right h1, max_eq_right h2, max_eq_right h3, max_eq_right h4,
    max_eq_right h5, max_eq_right h6, max_eq_right h7]

/-- Witness for the amended C2 at a concrete non-negative vector. -/
theorem C2_amended_clamp_identity_witness :
    ((0:ℚ) ≤ 80 ∧ (0:ℚ) ≤ 25 ∧ (0:ℚ) ≤ 13 ∧ (0:ℚ) ≤ 3 ∧ (0:ℚ) ≤ 3/10 ∧
        (0:ℚ) ≤ 9 ∧ (0:ℚ) ≤ 1) ∧
      calc_profit 80 25 13 3 (3/10) 9 1 =
        calc_profit (max 0 80) (max 0 25) (max 0 13) (max 0 3) (max 0 (3/10))
          (max 0 9) (max 0 1) :=
  ⟨by norm_num,
    C2_amended_clamp_identity 80 25 13 3 (3/10) 9 1 (by norm_num) (by norm_num)
      (by norm_num) (by norm_num) (by norm_num) (by norm_num) (by norm_num)⟩

/-- C3: `flip_score` equals the spec's heuristic (baseline 5, the seven gated
adjustments, clamp to [1, 10] and round to one decimal place), and for every
input the result lies in [1, 10]. -/
theorem C3_flip_score_matches_spec_and_bounded (p m s : ℚ) :
    flip_score p m s = flipScoreSpec p m s ∧
      1 ≤ flip_score p m s ∧ flip_score p m s ≤ 10 := by
  have h := clamp_round_int (flipRawZ p m s)
  unfold flip_score flipScoreSpec
  rw [flip_raw_eq_intCast]
  exact h

/-- C4 counterexample: the code's badge strings carry a decorative prefix, so
`flip_badge 3` is not literally the string "Bad Flip". -/
theorem C4_badge_literal_counterexample : flip_badge 3 ≠ "Bad Flip".toList := by
  simp only [flip_badge, if_pos (le_refl (3:ℚ))]
  decide

/-- C4 amended: `flip_badge` maps the score through the non-overlapping
thresholds ≤3 / ≤6 / ≤8 / >8 to one of exactly four strings, each ending in
the claimed qualitative label behind a decorative prefix; at the boundary
scores 3, 6, 8, 8.1 it returns the Bad/Risky/Good/Great strings respectively. -/
theorem C4_badge_thresholds (s : ℚ) :
    (s ≤ 3 → "Bad Flip".toList <:+ flip_badge s) ∧
    (3 < s → s ≤ 6 → "Risky".toList <:+ flip_badge s) ∧
    (6 < s → s ≤ 8 → "Good Flip".toList <:+ flip_badge s) ∧
    (8 < s → "Great Flip".toList <:+ flip_badge s) ∧
    flip_badge 3 = "â\u009D\u008C Bad Flip".toList ∧
    flip_badge 6 = "â\u009A\u00A0ï¸\u008F Risky".toList ∧
    flip_badge 8 = "â\u009C\u0085 Good Flip".toList ∧
    flip_badge (81/10) = "ð\u009F\u0094¥ Great Flip".toList := by
  refine ⟨?_, ?_, ?_, ?_, ?_, ?_, ?_, ?_⟩
  · intro h
    simp only [flip_badge, if_pos h]
    decide
  · intro h1 h2
    simp only [flip_badge, if_neg (not_le.2 h1), if_pos h2]
    decide
  · intro h1 h2
    have h3 : ¬ s ≤ 3 := not_le.2 (lt_trans (show (3:ℚ) < 6 by norm_num) h1)
    simp only [flip_badge, if_neg h3, if_neg (not_le.2 h1), if_pos h2]
    decide
  · intro h
    have h3 : ¬ s ≤ 3 := not_le.2 (lt_trans (show (3:ℚ) < 8 by norm_num) h)
    have h6 : ¬ s ≤ 6 := not_le.2 (lt_trans (show (6:ℚ) < 8 by norm_num) h)
    simp only [flip_badge, if_neg h3, if_neg h6, if_neg (not_le.2 h)]
    decide
  · simp only [flip_badge, if_pos (le_refl (3:ℚ))]
  · simp only [flip_badge, if_neg (show ¬ (6:ℚ) ≤ 3 by norm_num),
      if_pos (le_refl (6:ℚ))]
  · simp only [flip_badge, if_neg (show ¬ (8:ℚ) ≤ 3 by norm_num),
      if_neg (show ¬ (8:ℚ) ≤ 6 by norm_num), if_pos (le_refl (8:ℚ))]
  · simp only [flip_badge, if_neg (show ¬ (81:ℚ)/10 ≤ 3 by norm_num),
      if_neg (show ¬ (81:ℚ)/10 ≤ 6 by norm_num),
      if_neg (show ¬ (81:ℚ)/10 ≤ 8 by norm_num)]

/-- Witness for C4: each threshold branch applied at a concrete score. -/
theorem C4_badge_thresholds_witness :
    ("Bad Flip".toList <:+ flip_badge 2) ∧
      ("Risky".toList <:+ flip_badge 5) ∧
      ("Good Flip".toList <:+ flip_badge 7) ∧
      ("Great Flip".toList <:+ flip_badge 9) :=
  ⟨(C4_badge_thresholds 2).1 (by norm_num),
    (C4_badge_thresholds 5).2.1 (by norm_num) (by norm_num),
    (C4_badge_thresholds 7).2.2.1 (by norm_num) (by norm_num),
    (C4_badge_thresholds 9).2.2.2.1 (by norm_num)⟩

/-- C7: profit is strictly monotonic in the sale price, provided the combined
fee percentages are below 100 and (as the claim hypothesises) the sale price
exceeds the fixed costs. -/
theorem C7_profit_strictly_monotone (cogs ebay_fee_pct processing_pct
    processing_fixed shipping_cost packaging_cost sp1 sp2 : ℚ)
    (hpct : ebay_fee_pct + processing_pct < 100)
    (hfix : cogs + shipping_cost + packaging_cost + processing_fixed < sp1)
    (hlt : sp1 < sp2) :
    (calc_profit sp1 cogs ebay_fee_pct processing_pct processing_fixed
        shipping_cost packaging_cost).profit <
      (calc_profit sp2 cogs ebay_fee_pct processing_pct processing_fixed
        shipping_cost packaging_cost).profit := by
  simp only [calc_profit]
  nlinarith [mul_pos (show (0:ℚ) < sp2 - sp1 by linarith)
    (show (0:ℚ) < 1 - (ebay_fee_pct + processing_pct) / 100 by linarith)]

/-- Witness for C7 at concrete prices. -/
theorem C7_profit_strictly_monotone_witness :
    ((13:ℚ) + 3 < 100 ∧ (25:ℚ) + 9 + 1 + 3/10 < 50 ∧ (50:ℚ) < 60) ∧
      (calc_profit 50 25 13 3 (3/10) 9 1).profit <
        (calc_profit 60 25 13 3 (3/10) 9 1).profit :=
  ⟨by norm_num,
    C7_profit_strictly_monotone 25 13 3 (3/10) 9 1 50 60 (by norm_num)
      (by norm_num) (by norm_num)⟩

/-- C10: the margin guard covers the whole non-positive range: for every
salePrice ≤ 0 the computed margin is 0 (no division is performed). -/
theorem C10_margin_zero_on_nonpos (sale_price cogs ebay_fee_pct processing_pct
    processing_fixed shipping_cost packaging_cost : ℚ) (h : sale_price ≤ 0) :
    (calc_profit sale_price cogs ebay_fee_pct processing_pct processing_fixed
      shipping_cost packaging_cost).margin_pct = 0 := by
  simp [calc_profit, not_lt.2 h]

/-- Witness for C10 at a strictly negative price. -/
theorem C10_margin_zero_on_nonpos_witness :
    (-5:ℚ) ≤ 0 ∧ (calc_profit (-5) 1 2 3 4 5 6).margin_pct = 0 :=
  ⟨by norm_num, C10_margin_zero_on_nonpos (-5) 1 2 3 4 5 6 (by norm_num)⟩

/-! ### Helper lemmas for the text layer -/

lemma length_pyLStrip_le (s : Str) : (pyLStrip s).length ≤ s.length :=
  (List.dropWhile_sublist pyIsSpace).length_le

lemma length_pyRStrip_le (s : Str) : (pyRStrip s).length ≤ s.length := by
  have h := (List.dropWhile_sublist (l := s.reverse) pyIsSpace).length_le
  simpa [pyRStrip] using h

lemma length_pyStrip_le (s : Str) : (pyStrip s).length ≤ s.length :=
  le_trans (length_pyRStrip_le _) (length_pyLStrip_le _)

lemma length_collapseWs_le : ∀ s : Str, (collapseWs s).length ≤ s.length
  | [] => by simp [collapseWs]
  | [c] => by by_cases h : pyIsSpace c <;> simp [collapseWs, h]
  | c :: d :: rest => by
    have ih := length_collapseWs_le (d :: rest)
    by_cases h1 : pyIsSpace c <;> by_cases h2 : pyIsSpace d <;>
      simp only [collapseWs, h1, h2, Bool.false_eq_true, ite_true, ite_false,
        List.length_cons] at ih ⊢ <;> omega

lemma length_clean_token_le (s : Str) : (clean_token s).length ≤ s.length :=
  le_trans (length_collapseWs_le _) (length_pyStrip_le _)

lemma length_fit_to_limit_le (parts : List Str) (limit : Nat) :
    (fit_to_limit parts limit).length ≤ limit := by
  simp only [fit_to_limit]
  split_ifs with h1 h2 h3
  · simp
  · exact h2
  · exact h3
  · refine le_trans (length_pyRStrip_le _) ?_
    simp [List.length_take]

/-- Invariants of the candidate loop: at most `max_variants` entries,
pairwise case-insensitively distinct texts, and every entry within its
label's budget. -/
lemma variantLoop_spec (el maxv : Nat) (cands : List (Str × List Str)) :
    ∀ (seen : List Str) (out : List (Str × Str)),
    out.length < maxv →
    List.Pairwise (fun a b : Str × Str => lowerStr a.2 ≠ lowerStr b.2) out →
    (∀ x ∈ out, lowerStr x.2 ∈ seen) →
    (∀ x ∈ out, x.2.length ≤ labelBudget el x.1) →
    (variantLoop el maxv cands seen out).length ≤ maxv ∧
      List.Pairwise (fun a b : Str × Str => lowerStr a.2 ≠ lowerStr b.2)
        (variantLoop el maxv cands seen out) ∧
      (∀ x ∈ variantLoop el maxv cands seen out, x.2.length ≤ labelBudget el x.1) := by
  induction cands with
  | nil =>
    intro seen out hlen hpw _ hbud
    exact ⟨hlen.le, hpw, hbud⟩
  | cons hd rest ih =>
    obtain ⟨label, parts⟩ := hd
    intro seen out hlen hpw hseen hbud
    simp only [variantLoop]
    set L := (if label = "short".toList then 60
      else if label = "super short".toList then 45 else el) with hL
    set t := clean_token (fit_to_limit parts L) with hT
    have htbud : t.length ≤ labelBudget el label := by
      rw [hT]
      refine le_trans (length_clean_token_le _) ?_
      refine le_trans (length_fit_to_limit_le _ _) ?_
      rw [labelBudget, ← hL]
    have hnewpw : (lowerStr t ∉ seen) →
        List.Pairwise (fun a b : Str × Str => lowerStr a.2 ≠ lowerStr b.2)
          (out ++ [(label, t)]) := by
      intro hk
      refine List.pairwise_append.2 ⟨hpw, List.pairwise_singleton _ _, ?_⟩
      intro a ha b hb
      simp only [List.mem_singleton] at hb
      subst hb
      show lowerStr a.2 ≠ lowerStr t
      intro hab
      exact hk (hab ▸ hseen a ha)
    have hnewbud : ∀ x ∈ out ++ [(label, t)], x.2.length ≤ labelBudget el x.1 := by
      intro x hx
      rcases List.mem_append.1 hx with hx | hx
      · exact hbud x hx
      · simp only [List.mem_singleton] at hx
        subst hx
        exact htbud
    split_ifs with ht hk hbreak
    · exact ih seen out hlen hpw hseen hbud
    · exact ih seen out hlen hpw hseen hbud
    · -- break: out ++ [(label, t)] is returned
      refine ⟨?_, hnewpw hk, hnewbud⟩
      simp only [List.length_append, List.length_cons, List.length_nil]
      omega
    · -- continue with the extended accumulator
      refine ih (seen ++ [lowerStr t]) (out ++ [(label, t)]) ?_ (hnewpw hk) ?_ hnewbud
      · simp only [List.length_append, List.length_cons, List.length_nil] at hbreak ⊢
        omega
      · intro x hx
        rcases List.mem_append.1 hx with hx | hx
        · exact List.mem_append_left _ (hseen x hx)
        · simp only [List.mem_singleton] at hx
          subst hx
          exact List.mem_append_right _ (by simp)

lemma labelBudget_le_el {el : Nat} (h60 : 60 ≤ el) (label : Str) :
    labelBudget el label ≤ el := by
  rw [labelBudget]
  split_ifs <;> omega

lemma headD_mem {α : Type} (l : List α) (d : α) (h : l ≠ []) : l.headD d ∈ l := by
  cases l with
  | nil => exact absurd rfl h
  | cons a t => simp

lemma pyStrip_all_space {s : Str} (h : ∀ c ∈ s, pyIsSpace c) : pyStrip s = [] := by
  have h1 : pyLStrip s = [] := by
    rw [pyLStrip]
    rw [List.dropWhile_eq_nil_iff]
    exact h
  rw [pyStrip, h1]
  rfl

lemma clean_token_space {s : Str} (h : ∀ c ∈ s, pyIsSpace c) : clean_token s = [] := by
  rw [clean_token, pyStrip_all_space h]
  rfl

lemma splitlinesAux_space : ∀ (n : Nat) (cur s : Str), s.length ≤ n →
    (∀ c ∈ cur, pyIsSpace c) → (∀ c ∈ s, pyIsSpace c) →
    ∀ l ∈ splitlinesAux cur s, ∀ c ∈ l, pyIsSpace c
  | _, cur, [], _, hc, _ => by
    rw [splitlinesAux]
    split_ifs
    · simp
    · intro l hl
      simp only [List.mem_singleton] at hl
      subst hl
      exact hc
  | 0, _, c :: rest, hlen, _, _ => by simp at hlen
  | n + 1, cur, c :: rest, hlen, hc, hs => by
    rw [splitlinesAux.eq_def]
    split
    · rename_i heq
      exact absurd heq (by simp)
    · rename_i rest2 heq
      obtain ⟨rfl, rfl⟩ : c = '\r' ∧ rest = '\n' :: rest2 := by
        simpa using heq
      intro l hl
      rcases List.mem_cons.1 hl with rfl | hl
      · exact hc
      · refine splitlinesAux_space n [] rest2 ?_ (by simp) ?_ l hl
        · simp only [List.length_cons] at hlen
          omega
        · intro x hx
          exact hs x (by simp [hx])
    · rename_i heq
      simp only [List.cons.injEq] at heq
      obtain ⟨rfl, rfl⟩ := heq
      split_ifs with hbr
      · intro l hl
        rcases List.mem_cons.1 hl with rfl | hl
        · exact hc
        · refine splitlinesAux_space n [] rest ?_ (by simp) ?_ l hl
          · simp only [List.length_cons] at hlen
            omega
          · intro x hx
            exact hs x (by simp [hx])
      · intro l hl
        refine splitlinesAux_space n (cur ++ [c]) rest ?_ ?_ ?_ l hl
        · simp only [List.length_cons] at hlen
          omega
        · intro x hx
          rcases List.mem_append.1 hx with hx | hx
          · exact hc x hx
          · simp only [List.mem_singleton] at hx
            subst hx
            exact hs x (by simp)
        · intro x hx
          exact hs x (by simp [hx])

lemma blank_lines_filter {s : Str} (h : ∀ c ∈ s, pyIsSpace c) :
    ((pySplitlines s).map pyStrip).filter (· ≠ []) = [] := by
  rw [List.filter_eq_nil_iff]
  intro a ha
  simp only [List.mem_map] at ha
  obtain ⟨l, hl, rfl⟩ := ha
  have := pyStrip_all_space
    (splitlinesAux_space s.length [] s le_rfl (by simp) h l hl)
  simp [this]

lemma keywords_space {s : Str} (h : ∀ c ∈ s, pyIsSpace c) :
    keywords_from_features s 2 = [] := by
  rw [keywords_from_features, blank_lines_filter h]
  rfl

/-! ### Claims about the title builder -/

/-- The shape invariants for the loop result with its fallback, over any
candidate list: this is the common core of claim C5. -/
lemma variants_shape_aux (el : Nat) (h60 : 60 ≤ el)
    (cands : List (Str × List Str)) (parts : List Str) :
    let vs := if variantLoop el 6 cands [] [] = [] then
        [("eBay-fit".toList, pyOr (fit_to_limit parts el) "Item for sale".toList)]
      else variantLoop el 6 cands [] []
    1 ≤ vs.length ∧ vs.length ≤ 6 ∧
    List.Pairwise (fun a b : Str × Str => lowerStr a.2 ≠ lowerStr b.2) vs ∧
    (∀ x ∈ vs, x.2.length ≤ labelBudget el x.1) ∧
    (vs.headD ([], [])).2.length ≤ el := by
  by_cases hout : variantLoop el 6 cands [] [] = []
  · rw [if_pos hout]
    have hfall : (pyOr (fit_to_limit parts el) "Item for sale".toList).length ≤ el := by
      rw [pyOr]
      split_ifs
      · show ("Item for sale".toList).length ≤ el
        have h13 : ("Item for sale".toList).length = 13 := rfl
        omega
      · exact length_fit_to_limit_le _ _
    refine ⟨by rw [List.length_singleton], by rw [List.length_singleton]; omega,
      List.pairwise_singleton _ _, ?_, hfall⟩
    intro x hx
    simp only [List.mem_singleton] at hx
    subst hx
    show (pyOr (fit_to_limit _ el) _).length ≤ labelBudget el "eBay-fit".toList
    have hb : labelBudget el "eBay-fit".toList = el := by
      rw [labelBudget, if_neg (by decide), if_neg (by decide)]
    rw [hb]
    exact hfall
  · rw [if_neg hout]
    obtain ⟨h1, h2, h3⟩ := variantLoop_spec el 6 cands [] [] (by norm_num)
      List.Pairwise.nil (by simp) (by simp)
    refine ⟨?_, h1, h2, h3, ?_⟩
    · exact Nat.one_le_iff_ne_zero.2 (fun h0 => hout (List.length_eq_zero.1 h0))
    · exact le_trans (h3 _ (headD_mem _ _ hout)) (labelBudget_le_el h60 _)

/-- The C5 shape facts, as a reusable lemma. -/
lemma title_variants_props (platform brand item model condition
    features_lines : Str) :
    let vs := build_title_variants platform brand item model condition
      features_lines 6
    let el := if lowerStr (pyStrip platform) = "ebay".toList then 80 else 90
    1 ≤ vs.length ∧ vs.length ≤ 6 ∧
    List.Pairwise (fun a b : Str × Str => lowerStr a.2 ≠ lowerStr b.2) vs ∧
    (∀ x ∈ vs, x.2.length ≤ labelBudget el x.1) ∧
    (vs.headD ([], [])).2.length ≤ el := by
  have h60 : 60 ≤ (if lowerStr (pyStrip platform) = "ebay".toList then
      (80:Nat) else 90) := by
    split_ifs <;> omega
  have h := variants_shape_aux _ h60
  simp only [build_title_variants]
  exact h _ _

/-- C5: every result of `build_title_variants` has 1 to 6 entries, pairwise
case-insensitively distinct texts, every entry within its label's budget
(80 for eBay else 90 for full-length labels, 60 for "short", 45 for
"super short"), and the first (chosen) text within the 80/90 platform cap. -/
theorem C5_title_variants_shape (platform brand item model condition
    features_lines : Str) :
    let vs := build_title_variants platform brand item model condition
      features_lines 6
    let el := if lowerStr (pyStrip platform) = "ebay".toList then 80 else 90
    1 ≤ vs.length ∧ vs.length ≤ 6 ∧
    List.Pairwise (fun a b : Str × Str => lowerStr a.2 ≠ lowerStr b.2) vs ∧
    (∀ x ∈ vs, x.2.length ≤ labelBudget el x.1) ∧
    (vs.headD ([], [])).2.length ≤ el :=
  title_variants_props platform brand item model condition features_lines

/-- C6: with brand, item, model, condition and features all empty or
whitespace-only, `build_title_variants` returns exactly one variant, whose
text is the literal "Item for sale" (and, being a total function, raises
nothing). -/
theorem C6_blank_inputs (platform brand item model condition
    features_lines : Str)
    (hb : ∀ c ∈ brand, pyIsSpace c) (hi : ∀ c ∈ item, pyIsSpace c)
    (hm : ∀ c ∈ model, pyIsSpace c) (hc : ∀ c ∈ condition, pyIsSpace c)
    (hf : ∀ c ∈ features_lines, pyIsSpace c) :
    build_title_variants platform brand item model condition features_lines 6 =
      [("eBay-fit".toList, "Item for sale".toList)] := by
  simp only [build_title_variants, clean_token_space hb, clean_token_space hi,
    clean_token_space hm, clean_token_space hc, keywords_space hf]
  rfl

/-- Witness for C6 at concrete whitespace-only fields. -/
theorem C6_blank_inputs_witness :
    ((∀ c ∈ "  ".toList, pyIsSpace c) ∧ (∀ c ∈ " ".toList, pyIsSpace c) ∧
      (∀ c ∈ ("".toList : Str), pyIsSpace c) ∧ (∀ c ∈ " \t".toList, pyIsSpace c) ∧
      (∀ c ∈ " \n ".toList, pyIsSpace c)) ∧
    build_title_variants "eBay".toList "  ".toList " ".toList "".toList
        " \t".toList " \n ".toList 6 =
      [("eBay-fit".toList, "Item for sale".toList)] :=
  ⟨⟨by decide, by decide, by decide, by decide, by decide⟩,
    C6_blank_inputs "eBay".toList "  ".toList " ".toList "".toList " \t".toList
      " \n ".toList (by decide) (by decide) (by decide) (by decide) (by decide)⟩

/-- C9 counterexample: at the spec's scenario-2 input the first variant's
text carries BOTH extracted feature keywords ("16GB RAM" and "512GB SSD"),
not at most one. -/
theorem C9_two_keywords_counterexample :
    (build_title_variants "eBay".toList "Apple".toList "MacBook Pro".toList
        "A1990".toList "Used - Good".toList "16GB RAM\n512GB SSD".toList 6
      ).headD ([], []) =
      ("eBay-fit".toList, "Apple MacBook Pro A1990 16GB RAM 512GB SSD".toList) ∧
    keywords_from_features "16GB RAM\n512GB SSD".toList 2 =
      ["16GB RAM".toList, "512GB SSD".toList] ∧
    "16GB RAM".toList <:+:
      "Apple MacBook Pro A1990 16GB RAM 512GB SSD".toList ∧
    "512GB SSD".toList <:+:
      "Apple MacBook Pro A1990 16GB RAM 512GB SSD".toList := by
  decide

/-! ### Infix toolkit for the description claims -/

/-- A prefix of `A ++ c :: B` avoiding `c` is a prefix of `A`. -/
lemma prefix_avoid_char {M : Str} {c : Char} (hc : c ∉ M) :
    ∀ A B : Str, M <+: A ++ c :: B → M <+: A := by
  induction M with
  | nil => intro A B _; exact List.nil_prefix
  | cons m M' ih =>
    intro A B h
    cases A with
    | nil =>
      simp only [List.nil_append, List.cons_prefix_cons] at h
      exact absurd (h.1 ▸ List.mem_cons_self m M') hc
    | cons a A' =>
      simp only [List.cons_append, List.cons_prefix_cons] at h ⊢
      exact ⟨h.1, ih (fun hm => hc (List.mem_cons_of_mem _ hm)) A' B h.2⟩

/-- An infix of `A ++ c :: B` avoiding `c` lies in `A` or in `B`. -/
lemma infix_split_at_char {M : Str} {c : Char} (hc : c ∉ M) :
    ∀ A B : Str, M <:+: A ++ c :: B → M <:+: A ∨ M <:+: B := by
  intro A
  induction A with
  | nil =>
    intro B h
    simp only [List.nil_append] at h
    rcases List.infix_cons_iff.1 h with h | h
    · cases M with
      | nil => exact Or.inl List.nil_infix
      | cons m M' =>
        simp only [List.cons_prefix_cons] at h
        exact absurd (h.1 ▸ List.mem_cons_self m M') hc
    · exact Or.inr h
  | cons a A' ih =>
    intro B h
    simp only [List.cons_append] at h
    rcases List.infix_cons_iff.1 h with h | h
    · exact Or.inl ((prefix_avoid_char hc (a :: A') B
        (by simpa using h)).isInfix)
    · rcases ih B h with h | h
      · exact Or.inl (List.infix_cons h)
      · exact Or.inr h

/-- A non-empty newline-free infix of a joined line list is an infix of one
of the lines. -/
lemma infix_join_lines {M : Str} (hne : M ≠ []) (hnl : '\n' ∉ M) :
    ∀ lines : List Str, M <:+: pyJoin ['\n'] lines → ∃ l ∈ lines, M <:+: l
  | [] => by
    intro h
    rw [pyJoin] at h
    exact absurd (List.eq_nil_of_infix_nil h) hne
  | [x] => by
    intro h
    exact ⟨x, by simp, by simpa [pyJoin] using h⟩
  | x :: y :: rest => by
    intro h
    rw [pyJoin, List.append_assoc] at h
    rcases infix_split_at_char hnl x (pyJoin ['\n'] (y :: rest))
        (by simpa using h) with h | h
    · exact ⟨x, by simp, h⟩
    · obtain ⟨l, hl, hml⟩ := infix_join_lines hne hnl (y :: rest) h
      exact ⟨l, List.mem_cons_of_mem _ hl, hml⟩

lemma noSpanB_spec {p M : Str} (h : noSpanB p M = true) :
    ∀ s : Str, s ≠ [] → s <:+ p → ¬ s <+: M := by
  intro s hs hsuf hpre
  obtain ⟨t, ht⟩ := hsuf
  have hd : p.drop t.length = s := by rw [← ht, List.drop_left]
  have hlt : t.length < p.length := by
    have := congrArg List.length ht
    simp only [List.length_append] at this
    have : 0 < s.length := List.length_pos.2 hs
    omega
  have := (List.all_eq_true.1 h) t.length (List.mem_range.2 hlt)
  rw [hd] at this
  simp only [Bool.not_eq_true'] at this
  exact absurd (List.isPrefixOf_iff_prefix.2 hpre) (by simp [this])

/-- A long string avoiding spans cannot sit inside `p ++ f` unless it sits
inside `f`. -/
lemma not_infix_line {M f : Str} (hf : ¬ M <:+: f) :
    ∀ p : Str, (∀ s : Str, s ≠ [] → s <:+ p → ¬ s <+: M) →
      p.length < M.length → ¬ M <:+: p ++ f := by
  intro p
  induction p with
  | nil =>
    intro _ _ h
    exact hf (by simpa using h)
  | cons a p' ih =>
    intro hspan hlen h
    simp only [List.cons_append] at h
    rcases List.infix_cons_iff.1 h with h | h
    · have hM : (a :: p') <+: M :=
        List.prefix_of_prefix_length_le (List.prefix_append (a :: p') f)
          (by simpa using h) hlen.le
      exact hspan (a :: p') (by simp) List.suffix_rfl hM
    · refine ih ?_ ?_ h
      · intro s hs hsuf
        exact hspan s hs (hsuf.trans (List.suffix_cons a p'))
      · simp only [List.length_cons] at hlen
        omega

/-- Walking over a literal chunk: a long span-free string inside
`lit ++ R` must lie inside `R`. -/
lemma skip_lit {M R : Str} : ∀ lit : Str,
    (∀ s : Str, s ≠ [] → s <:+ lit → ¬ s <+: M) → lit.length < M.length →
    M <:+: lit ++ R → M <:+: R := by
  intro lit
  induction lit with
  | nil =>
    intro _ _ h
    simpa using h
  | cons a p' ih =>
    intro hspan hlen h
    simp only [List.cons_append] at h
    rcases List.infix_cons_iff.1 h with h | h
    · have hM : (a :: p') <+: M :=
        List.prefix_of_prefix_length_le (List.prefix_append (a :: p') R)
          (by simpa using h) hlen.le
      exact absurd hM (hspan (a :: p') (by simp) List.suffix_rfl)
    · refine ih ?_ ?_ h
      · intro s hs hsuf
        exact hspan s hs (hsuf.trans (List.suffix_cons a p'))
      · simp only [List.length_cons] at hlen
        omega

/-- A string strictly longer than `l` is not an infix of `l`. -/
lemma not_infix_of_longer {M l : Str} (h : l.length < M.length) :
    ¬ M <:+: l := fun hin => absurd hin.length_le (by omega)

/-- Stripping only shrinks: an infix of the stripped string is an infix of
the original. -/
lemma infix_of_infix_pyStrip {M s : Str} (h : M <:+: pyStrip s) : M <:+: s := by
  refine h.trans ?_
  have h1 : pyLStrip s <:+ s := List.dropWhile_suffix pyIsSpace
  have h2 : pyRStrip (pyLStrip s) <+: pyLStrip s := by
    rw [pyRStrip]
    have := List.dropWhile_suffix (l := (pyLStrip s).reverse) pyIsSpace
    rw [← List.reverse_prefix] at this
    simpa using this
  exact List.IsInfix.trans h2.isInfix h1.isInfix

/-- Membership in an `if` of two lists. -/
lemma mem_ite_list {α : Type} {x : α} {P : Prop} [Decidable P] {A B : List α}
    (h : x ∈ if P then A else B) : x ∈ A ∨ x ∈ B := by
  split at h
  · exact Or.inl h
  · exact Or.inr h

lemma natCharsF_digits : ∀ (fuel n : Nat), ∀ c ∈ natCharsF fuel n,
    '0' ≤ c ∧ c ≤ '9'
  | 0, n => by simp [natCharsF]
  | fuel + 1, n => by
    rw [natCharsF]
    split_ifs with h
    · intro c hc
      simp only [List.mem_singleton] at hc
      subst hc
      interval_cases n <;> decide
    · intro c hc
      rcases List.mem_append.1 hc with hc | hc
      · exact natCharsF_digits fuel (n / 10) c hc
      · simp only [List.mem_singleton] at hc
        subst hc
        have h10 : n % 10 < 10 := Nat.mod_lt _ (by omega)
        set m := n % 10 with hm
        interval_cases m <;> decide

lemma intChars_digits (n : Int) : ∀ c ∈ intChars n, c = '-' ∨ ('0' ≤ c ∧ c ≤ '9') := by
  rw [intChars]
  split_ifs
  · intro c hc
    rcases List.mem_cons.1 hc with rfl | hc
    · exact Or.inl rfl
    · exact Or.inr (natCharsF_digits _ _ c hc)
  · intro c hc
    exact Or.inr (natCharsF_digits _ _ c hc)

/-- A string containing a capital letter is never inside a rendered number. -/
lemma not_infix_intChars {M : Str} (hS : 'S' ∈ M) (n : Int) :
    ¬ M <:+: intChars n := by
  intro h
  rcases intChars_digits n 'S' (h.subset hS) with h' | h'
  · exact absurd h' (by decide)
  · exact absurd h' (by decide)

/-- Every line produced by `splitlinesAux` is an infix of `cur ++ s`. -/
lemma splitlinesAux_infix : ∀ (n : Nat) (cur s : Str), s.length ≤ n →
    ∀ l ∈ splitlinesAux cur s, l <:+: cur ++ s
  | _, cur, [], _ => by
    rw [splitlinesAux]
    split_ifs
    · simp
    · intro l hl
      simp only [List.mem_singleton] at hl
      subst hl
      simp
  | 0, cur, c :: rest, hlen => by simp at hlen
  | n + 1, cur, c :: rest, hlen => by
    rw [splitlinesAux.eq_def]
    split
    · rename_i heq
      exact absurd heq (by simp)
    · rename_i rest2 heq
      obtain ⟨rfl, rfl⟩ : c = '\r' ∧ rest = '\n' :: rest2 := by simpa using heq
      intro l hl
      rcases List.mem_cons.1 hl with rfl | hl
      · exact (List.prefix_append l _).isInfix
      · have h1 := splitlinesAux_infix n [] rest2
          (by simp only [List.length_cons] at hlen; omega) l hl
        simp only [List.nil_append] at h1
        refine h1.trans ?_
        exact ⟨cur ++ ['\r', '\n'], [], by simp⟩
    · rename_i heq
      simp only [List.cons.injEq] at heq
      obtain ⟨rfl, rfl⟩ := heq
      split_ifs with hbr
      · intro l hl
        rcases List.mem_cons.1 hl with rfl | hl
        · exact (List.prefix_append l _).isInfix
        · have h1 := splitlinesAux_infix n [] rest
            (by simp only [List.length_cons] at hlen; omega) l hl
          simp only [List.nil_append] at h1
          refine h1.trans ?_
          exact ⟨cur ++ [c], [], by simp⟩
      · intro l hl
        have h1 := splitlinesAux_infix n (cur ++ [c]) rest
          (by simp only [List.length_cons] at hlen; omega) l hl
        simpa using h1

lemma infix_of_mem_splitlines {s : Str} : ∀ l ∈ pySplitlines s, l <:+: s :=
  fun l hl => by simpa using splitlinesAux_infix s.length [] s le_rfl l hl

/-- If `M` avoids the raw multi-line field, it avoids each cleaned line. -/
lemma not_infix_of_lines {M fl : Str} (hM : ¬ M <:+: fl) :
    ∀ x ∈ ((pySplitlines fl).map pyStrip).filter (· ≠ []), ¬ M <:+: x := by
  intro x hx hMx
  simp only [List.mem_filter, List.mem_map] at hx
  obtain ⟨⟨l, hl, rfl⟩, _⟩ := hx
  exact hM ((infix_of_infix_pyStrip hMx).trans (infix_of_mem_splitlines l hl))

/-- A block appended at the end, whose first and last characters are
non-whitespace, survives the final `strip` (modulo trailing whitespace). -/
lemma note_keeps (nh : Char) (N2 Y T : Str)
    (hh : ¬ pyIsSpace nh = true)
    (hl : ¬ pyIsSpace (((nh :: N2) : Str).reverse.headD ' ') = true)
    (hT : ∀ c ∈ T, pyIsSpace c) :
    ((nh :: N2) : Str) <:+: pyStrip (Y ++ (((nh :: N2) : Str) ++ T)) := by
  set N : Str := nh :: N2 with hN
  have hstep1 : ∃ Z, pyLStrip (Y ++ (N ++ T)) = Z ++ (N ++ T) := by
    rw [pyLStrip, List.dropWhile_append]
    split_ifs
    · refine ⟨[], ?_⟩
      simp only [List.nil_append]
      rw [hN, List.cons_append, List.dropWhile_cons, if_neg hh, ← List.cons_append]
    · exact ⟨_, rfl⟩
  obtain ⟨Z, hZ⟩ := hstep1
  rw [pyStrip, hZ]
  have hrs : pyRStrip (Z ++ (N ++ T)) = Z ++ N := by
    rw [pyRStrip]
    have h1 : (Z ++ (N ++ T)).reverse = T.reverse ++ (N.reverse ++ Z.reverse) := by
      simp [List.reverse_append, List.append_assoc]
    rw [h1, List.dropWhile_append]
    have hTrev : (T.reverse.dropWhile pyIsSpace) = [] := by
      rw [List.dropWhile_eq_nil_iff]
      intro x hx
      exact hT x (List.mem_reverse.1 hx)
    rw [if_pos (by simp [hTrev])]
    obtain ⟨rh, R, hR⟩ : ∃ rh R, N.reverse = rh :: R := by
      cases hNr : N.reverse with
      | nil =>
        rw [hN] at hNr
        simp at hNr
      | cons rh R => exact ⟨rh, R, rfl⟩
    have hrh : ¬ pyIsSpace rh = true := by
      rw [hR] at hl
      simpa using hl
    rw [hR, List.cons_append, List.dropWhile_cons, if_neg hrh,
      ← List.cons_append, ← hR]
    simp [List.reverse_append]
  rw [hrs]
  exact (List.suffix_append Z N).isInfix

lemma pyJoin_append_last (sep : Str) : ∀ (L : List Str) (x : Str), L ≠ [] →
    pyJoin sep (L ++ [x]) = pyJoin sep L ++ sep ++ x
  | [], _, h => absurd rfl h
  | [y], x, _ => by simp [pyJoin]
  | y :: z :: rest, x, _ => by
    have ih := pyJoin_append_last sep (z :: rest) x (by simp)
    rw [show ((y :: z :: rest) ++ [x] : List Str) = y :: (z :: (rest ++ [x]))
      by simp, pyJoin]
    rw [show (z :: (rest ++ [x]) : List Str) = (z :: rest) ++ [x] by simp, ih,
      pyJoin]
    simp [List.append_assoc]

/-- C9 amended: at the scenario input the first variant is exactly
"Apple MacBook Pro A1990 16GB RAM 512GB SSD": it starts with the
brand+item+model base, carries the (two) extracted feature keywords, and its
length is within the eBay cap of 80. -/
theorem C9_first_variant_scenario :
    (let t := ((build_title_variants "eBay".toList "Apple".toList
      "MacBook Pro".toList "A1990".toList "Used - Good".toList
      "16GB RAM\n512GB SSD".toList 6).headD ([], [])).2
    t = "Apple MacBook Pro A1990 16GB RAM 512GB SSD".toList ∧
    "Apple MacBook Pro A1990".toList <+: t ∧ t.length ≤ 80) := by
  decide

/-! ### The parts/repair note in the rendered description (claim C8) -/

lemma not_infix_pyOr {M s t : Str} (hs : ¬ M <:+: s) (ht : ¬ M <:+: t) :
    ¬ M <:+: pyOr s t := by
  rw [pyOr]
  split_ifs <;> assumption

lemma note_keeps' (nh : Char) (N2 Y : Str)
    (hh : ¬ pyIsSpace nh = true)
    (hl : ¬ pyIsSpace (((nh :: N2) : Str).reverse.headD ' ') = true) :
    ((nh :: N2) : Str) <:+: pyStrip (Y ++ (nh :: N2)) := by
  have h := note_keeps nh N2 Y [] hh hl (by simp)
  simpa using h

/-- With the note set, the eBay description contains the bold note. -/
lemma ebay_note_pos (title cond cat : Str) (qty : Int) (feats defs : List Str)
    (a b c d e : Str) :
    PARTS_NOTE <:+: platform_description "eBay".toList title cond cat qty feats
      defs a b c d e PARTS_NOTE := by
  have hp : lowerStr (pyStrip "eBay".toList) = "ebay".toList := by decide
  simp only [platform_description, hp, eq_self_iff_true, if_true]
  rw [if_pos (show PARTS_NOTE ≠ [] by decide)]
  rw [show PARTS_NOTE = '*' :: PARTS_NOTE.tail from by decide]
  exact note_keeps '*' PARTS_NOTE.tail _ ['\n'] (by decide) (by decide) (by decide)

/-- With the note set, the Facebook description contains the star-stripped
note. -/
lemma fb_note_pos (title cond cat : Str) (qty : Int) (feats defs : List Str)
    (a b c d e : Str) :
    replace_double_star PARTS_NOTE <:+:
      platform_description "Facebook Marketplace".toList title cond cat qty
        feats defs a b c d e PARTS_NOTE := by
  have hp : lowerStr (pyStrip "Facebook Marketplace".toList) =
      "facebook marketplace".toList := by decide
  have h1 : ("facebook marketplace".toList = "ebay".toList) = False := by decide
  simp only [platform_description, hp, h1, if_false, eq_self_iff_true, true_or,
    if_true]
  rw [if_pos (show PARTS_NOTE ≠ [] by decide)]
  have hsplit : ∀ (L : List Str) (x y : Str), L ++ [x, y] = (L ++ [x]) ++ [y] :=
    fun L x y => by simp
  rw [hsplit, pyJoin_append_last]
  · rw [show replace_double_star PARTS_NOTE =
      'P' :: (replace_double_star PARTS_NOTE).tail from by decide]
    exact note_keeps' 'P' _ _ (by decide) (by decide)
  · simp

/-- With the note set, the Mercari description contains the star-stripped
note. -/
lemma mercari_note_pos (title cond cat : Str) (qty : Int) (feats defs : List Str)
    (a b c d e : Str) :
    replace_double_star PARTS_NOTE <:+:
      platform_description "Mercari".toList title cond cat qty
        feats defs a b c d e PARTS_NOTE := by
  have hp : lowerStr (pyStrip "Mercari".toList) = "mercari".toList := by decide
  have h1 : ("mercari".toList = "ebay".toList) = False := by decide
  have h2 : ("mercari".toList = "facebook marketplace".toList ∨
      "mercari".toList = "facebook".toList) = False := by decide
  simp only [platform_description, hp, h1, h2, if_false, eq_self_iff_true,
    if_true]
  rw [if_pos (show PARTS_NOTE ≠ [] by decide)]
  rw [pyJoin_append_last]
  · rw [show replace_double_star PARTS_NOTE =
      'P' :: (replace_double_star PARTS_NOTE).tail from by decide]
    exact note_keeps' 'P' _ _ (by decide) (by decide)
  · simp

/-- With the note set, the OfferUp description contains the star-stripped
note. -/
lemma offerup_note_pos (title cond cat : Str) (qty : Int) (feats defs : List Str)
    (a b c d e : Str) :
    replace_double_star PARTS_NOTE <:+:
      platform_description "OfferUp".toList title cond cat qty
        feats defs a b c d e PARTS_NOTE := by
  have hp : lowerStr (pyStrip "OfferUp".toList) = "offerup".toList := by decide
  have h1 : ("offerup".toList = "ebay".toList) = False := by decide
  have h2 : ("offerup".toList = "facebook marketplace".toList ∨
      "offerup".toList = "facebook".toList) = False := by decide
  have h3 : ("offerup".toList = "mercari".toList) = False := by decide
  simp only [platform_description, hp, h1, h2, h3, if_false, eq_self_iff_true,
    if_true]
  rw [if_pos (show PARTS_NOTE ≠ [] by decide)]
  have hsplit : ∀ (L : List Str) (x y : Str), L ++ [x, y] = (L ++ [x]) ++ [y] :=
    fun L x y => by simp
  rw [hsplit, pyJoin_append_last]
  · rw [show replace_double_star PARTS_NOTE =
      'P' :: (replace_double_star PARTS_NOTE).tail from by decide]
    exact note_keeps' 'P' _ _ (by decide) (by decide)
  · simp

lemma span_single {M : Str} {c : Char} (hc : c ∉ M) :
    ∀ s : Str, s ≠ [] → s <:+ [c] → ¬ s <+: M := by
  intro s hs hsuf hpre
  obtain ⟨t, ht⟩ := hsuf
  cases t with
  | cons y ys =>
    have h1 := congrArg List.length ht
    have h2 : 0 < s.length := List.length_pos.2 hs
    simp only [List.length_append, List.length_cons, List.length_singleton, List.length_nil] at h1
    omega
  | nil =>
    simp only [List.nil_append] at ht
    subst ht
    rcases hpre with ⟨u, hu⟩
    exact hc (hu ▸ List.mem_append_left u (List.mem_singleton_self c))

lemma skip_block {M R : Str} (hnl : '\n' ∉ M) (hne : M ≠ [])
    (lit j : Str) (P : Prop) [Decidable P]
    (hlit : ∀ s : Str, s ≠ [] → s <:+ lit → ¬ s <+: M)
    (hlen : lit.length < M.length) (hone : 1 < M.length)
    (hj : ¬ M <:+: j)
    (h : M <:+: (if P then lit ++ '\n' :: (j ++ ['\n', '\n']) else []) ++ R) :
    M <:+: R := by
  split at h
  · simp only [List.append_assoc, List.cons_append, List.nil_append] at h
    have h1 := skip_lit lit hlit hlen h
    have h2 := skip_lit ['\n'] (span_single hnl) (by simpa using hone) h1
    rcases infix_split_at_char hnl j _ h2 with h3 | h3
    · exact absurd h3 hj
    · exact skip_lit ['\n'] (span_single hnl) (by simpa using hone) h3
  · simpa using h

lemma bullets_no_marker {xs : List Str} (hx : ∀ x ∈ xs, ¬ MARKER <:+: x) :
    ¬ MARKER <:+:
      (if xs ≠ [] then pyJoin ['\n'] (xs.map (fun x => "- ".toList ++ x))
       else []) := by
  split
  · intro hin
    obtain ⟨l, hl, hMl⟩ := infix_join_lines (by decide) (by decide) _ hin
    obtain ⟨x, hxm, rfl⟩ := List.mem_map.1 hl
    exact not_infix_line (hx x hxm) "- ".toList (noSpanB_spec (by decide))
      (by decide) hMl
  · exact not_infix_of_longer (by decide)

lemma ebay_no_marker (title cond cat : Str) (qty : Int)
    (feats defs : List Str) (a b c d e : Str)
    (htitle : title.length ≤ 90)
    (hfeat : ∀ x ∈ feats, ¬ MARKER <:+: x)
    (hdef : ∀ x ∈ defs, ¬ MARKER <:+: x)
    (hcond : ¬ MARKER <:+: cond) (hcat : ¬ MARKER <:+: cat)
    (ha : ¬ MARKER <:+: a) (hb : ¬ MARKER <:+: b) (hc : ¬ MARKER <:+: c)
    (hd : ¬ MARKER <:+: d) (he : ¬ MARKER <:+: e) :
    ¬ MARKER <:+: platform_description "eBay".toList title cond cat qty
      feats defs a b c d e [] := by
  have hnl : '\n' ∉ MARKER := by decide
  have hne : MARKER ≠ [] := by decide
  have h94 : MARKER.length = 94 := by decide
  have hone : 1 < MARKER.length := by omega
  have h1n : (['\n'] : Str).length < MARKER.length := by simpa using hone
  have hdash : ¬ MARKER <:+: dashChars := not_infix_of_longer (by decide)
  have hp : lowerStr (pyStrip "eBay".toList) = "ebay".toList := by decide
  intro h
  simp only [platform_description, hp, eq_self_iff_true, if_true] at h
  rw [if_neg (show ¬(([] : Str) ≠ []) by simp)] at h
  replace h := infix_of_infix_pyStrip h
  have e1 : "\n\n".toList = ['\n'] ++ ['\n'] := by decide
  have e2 : "### Key features\n".toList = "### Key features".toList ++ ['\n'] := by
    decide
  have e3 : "### Notes / defects\n".toList =
      "### Notes / defects".toList ++ ['\n'] := by decide
  simp only [e1, e2, e3] at h
  simp only [List.append_assoc, List.cons_append, List.nil_append,
    List.append_nil, List.singleton_append] at h
  have h1 := skip_lit "## ".toList (noSpanB_spec (by decide)) (by decide) h
  rcases infix_split_at_char hnl title _ h1 with h2 | h2
  · exact absurd h2 (not_infix_of_longer (by omega))
  have h3 := skip_lit ['\n'] (span_single hnl) h1n h2
  have h4 := skip_block hnl hne "### Key features".toList _ _
    (noSpanB_spec (by decide)) (by decide) hone (bullets_no_marker hfeat) h3
  have h5 := skip_block hnl hne "### Notes / defects".toList _ _
    (noSpanB_spec (by decide)) (by decide) hone (bullets_no_marker hdef) h4
  have h6 := skip_lit "**Condition:** ".toList (noSpanB_spec (by decide))
    (by decide) h5
  rcases infix_split_at_char hnl cond _ h6 with h7 | h7
  · exact absurd h7 hcond
  have h8 := skip_lit "**Quantity:** ".toList (noSpanB_spec (by decide))
    (by decide) h7
  rcases infix_split_at_char hnl (intChars qty) _ h8 with h9 | h9
  · exact absurd h9 (not_infix_intChars (by decide) qty)
  have h10 := skip_lit "**Category:** ".toList (noSpanB_spec (by decide))
    (by decide) h9
  rcases infix_split_at_char hnl (pyOr cat dashChars) _ h10 with h11 | h11
  · exact absurd h11 (not_infix_pyOr hcat hdash)
  have h12 := skip_lit ['\n'] (span_single hnl) h1n h11
  have h13 := skip_lit "**Location:** ".toList (noSpanB_spec (by decide))
    (by decide) h12
  rcases infix_split_at_char hnl (pyOr a dashChars) _ h13 with h14 | h14
  · exact absurd h14 (not_infix_pyOr ha hdash)
  have h15 := skip_lit "**Pickup:** ".toList (noSpanB_spec (by decide))
    (by decide) h14
  rcases infix_split_at_char hnl (pyOr b dashChars) _ h15 with h16 | h16
  · exact absurd h16 (not_infix_pyOr hb hdash)
  have h17 := skip_lit "**Shipping:** ".toList (noSpanB_spec (by decide))
    (by decide) h16
  rcases infix_split_at_char hnl (pyOr c dashChars) _ h17 with h18 | h18
  · exact absurd h18 (not_infix_pyOr hc hdash)
  have h19 := skip_lit "**Handling time:** ".toList (noSpanB_spec (by decide))
    (by decide) h18
  rcases infix_split_at_char hnl (pyOr d dashChars) _ h19 with h20 | h20
  · exact absurd h20 (not_infix_pyOr hd hdash)
  have h21 := skip_lit "**Returns:** ".toList (noSpanB_spec (by decide))
    (by decide) h20
  rcases infix_split_at_char hnl (pyOr e dashChars) _ h21 with h22 | h22
  · exact absurd h22 (not_infix_pyOr he hdash)
  exact absurd h22 (not_infix_of_longer (by decide))

lemma mercari_no_marker (title cond cat : Str) (qty : Int)
    (feats defs : List Str) (a b c d e : Str)
    (htitle : title.length ≤ 90)
    (hfeat : ∀ x ∈ feats, ¬ MARKER <:+: x)
    (hdef : ∀ x ∈ defs, ¬ MARKER <:+: x)
    (hcond : cond.length ≤ 60) :
    ¬ MARKER <:+: platform_description "Mercari".toList title cond cat qty
      feats defs a b c d e [] := by
  have hp : lowerStr (pyStrip "Mercari".toList) = "mercari".toList := by decide
  have h1 : ("mercari".toList = "ebay".toList) = False := by decide
  have h2 : ("mercari".toList = "facebook marketplace".toList ∨
      "mercari".toList = "facebook".toList) = False := by decide
  simp only [platform_description, hp, h1, h2, if_false, eq_self_iff_true,
    if_true]
  rw [if_neg (show ¬(([] : Str) ≠ []) by simp)]
  intro h
  have h94 : MARKER.length = 94 := by decide
  have h' := infix_of_infix_pyStrip h
  obtain ⟨l, hl, hMl⟩ := infix_join_lines (by decide) (by decide) _ h'
  simp only [List.append_nil, List.mem_append, List.mem_cons,
    List.not_mem_nil, or_false] at hl
  rcases hl with ((hl | hl) | hl) | hl
  · rcases hl with rfl | rfl
    · exact not_infix_of_longer (by omega) hMl
    · exact not_infix_of_longer (by simp; omega) hMl
  · rcases mem_ite_list hl with hl | hl
    · rcases List.mem_cons.1 hl with rfl | hl
      · exact not_infix_of_longer (by decide) hMl
      · rcases List.mem_append.1 hl with hl | hl
        · obtain ⟨x, hx, rfl⟩ := List.mem_map.1 hl
          exact not_infix_line (hfeat x hx) "- ".toList
            (noSpanB_spec (by decide)) (by decide) hMl
        · simp only [List.mem_singleton] at hl
          subst hl
          exact not_infix_of_longer (by simp; omega) hMl
    · exact absurd hl (List.not_mem_nil l)
  · rcases mem_ite_list hl with hl | hl
    · rcases List.mem_cons.1 hl with rfl | hl
      · exact not_infix_of_longer (by decide) hMl
      · rcases List.mem_append.1 hl with hl | hl
        · obtain ⟨x, hx, rfl⟩ := List.mem_map.1 hl
          exact not_infix_line (hdef x hx) "- ".toList
            (noSpanB_spec (by decide)) (by decide) hMl
        · simp only [List.mem_singleton] at hl
          subst hl
          exact not_infix_of_longer (by simp; omega) hMl
    · exact absurd hl (List.not_mem_nil l)
  · subst hl
    have h11 : ("Condition: ".toList).length = 11 := by decide
    refine not_infix_of_longer ?_ hMl
    rw [List.length_append, h11, h94]
    omega

lemma fb_no_marker (title cond cat : Str) (qty : Int)
    (feats defs : List Str) (a b c d e : Str)
    (htitle : title.length ≤ 90)
    (hfeat : ∀ x ∈ feats, ¬ MARKER <:+: x)
    (hdef : ∀ x ∈ defs, ¬ MARKER <:+: x)
    (hcond : cond.length ≤ 60) (hcat : ¬ MARKER <:+: cat)
    (ha : ¬ MARKER <:+: a) (hb : ¬ MARKER <:+: b) (hc : ¬ MARKER <:+: c)
    (he : ¬ MARKER <:+: e) :
    ¬ MARKER <:+: platform_description "Facebook Marketplace".toList title cond
      cat qty feats defs a b c d e [] := by
  have hp : lowerStr (pyStrip "Facebook Marketplace".toList) =
      "facebook marketplace".toList := by decide
  have h1 : ("facebook marketplace".toList = "ebay".toList) = False := by decide
  simp only [platform_description, hp, h1, if_false, eq_self_iff_true,
    true_or, if_true]
  rw [if_neg (show ¬(([] : Str) ≠ []) by simp)]
  intro h
  have h94 : MARKER.length = 94 := by decide
  have hdash1 : ¬ MARKER <:+: ['-'] := not_infix_of_longer (by decide)
  have h' := infix_of_infix_pyStrip h
  obtain ⟨l, hl, hMl⟩ := infix_join_lines (by decide) (by decide) _ h'
  simp only [List.append_nil, List.mem_append, List.mem_cons,
    List.not_mem_nil, or_false] at hl
  rcases hl with (((((hl | hl) | hl) | hl) | hl) | hl) | hl
  · rcases hl with rfl | rfl
    · exact not_infix_of_longer (by omega) hMl
    · exact not_infix_of_longer (by simp; omega) hMl
  · rcases hl with rfl | rfl
    · have h11 : ("Condition: ".toList).length = 11 := by decide
      refine not_infix_of_longer ?_ hMl
      rw [List.length_append, h11, h94]
      omega
    · exact not_infix_line (not_infix_intChars (by decide) qty) "Qty: ".toList
        (noSpanB_spec (by decide)) (by decide) hMl
  · rcases mem_ite_list hl with hl | hl
    · simp only [List.mem_singleton] at hl
      subst hl
      exact not_infix_line hcat "Category: ".toList
        (noSpanB_spec (by decide)) (by decide) hMl
    · exact absurd hl (List.not_mem_nil l)
  · subst hl
    exact not_infix_of_longer (by simp; omega) hMl
  · rcases mem_ite_list hl with hl | hl
    · rcases List.mem_cons.1 hl with rfl | hl
      · exact not_infix_of_longer (by decide) hMl
      · rcases List.mem_append.1 hl with hl | hl
        · obtain ⟨x, hx, rfl⟩ := List.mem_map.1 hl
          exact not_infix_line (hfeat x hx) bulletChars
            (noSpanB_spec (by decide)) (by decide) hMl
        · simp only [List.mem_singleton] at hl
          subst hl
          exact not_infix_of_longer (by simp; omega) hMl
    · exact absurd hl (List.not_mem_nil l)
  · rcases mem_ite_list hl with hl | hl
    · rcases List.mem_cons.1 hl with rfl | hl
      · exact not_infix_of_longer (by decide) hMl
      · rcases List.mem_append.1 hl with hl | hl
        · obtain ⟨x, hx, rfl⟩ := List.mem_map.1 hl
          exact not_infix_line (hdef x hx) bulletChars
            (noSpanB_spec (by decide)) (by decide) hMl
        · simp only [List.mem_singleton] at hl
          subst hl
          exact not_infix_of_longer (by simp; omega) hMl
    · exact absurd hl (List.not_mem_nil l)
  · rcases hl with rfl | rfl | rfl | rfl
    · exact not_infix_line (not_infix_pyOr hb hdash1) "Pickup: ".toList
        (noSpanB_spec (by decide)) (by decide) hMl
    · exact not_infix_line (not_infix_pyOr hc hdash1) "Shipping: ".toList
        (noSpanB_spec (by decide)) (by decide) hMl
    · exact not_infix_line (not_infix_pyOr ha hdash1) "Location: ".toList
        (noSpanB_spec (by decide)) (by decide) hMl
    · exact not_infix_line (not_infix_pyOr he hdash1) "Returns: ".toList
        (noSpanB_spec (by decide)) (by decide) hMl

lemma offerup_no_marker (title cond cat : Str) (qty : Int)
    (feats defs : List Str) (a b c d e : Str)
    (htitle : title.length ≤ 90)
    (hfeat : ∀ x ∈ feats, ¬ MARKER <:+: x)
    (hdef : ∀ x ∈ defs, ¬ MARKER <:+: x)
    (hcond : cond.length ≤ 60)
    (ha : ¬ MARKER <:+: a) (hb : ¬ MARKER <:+: b) :
    ¬ MARKER <:+: platform_description "OfferUp".toList title cond
      cat qty feats defs a b c d e [] := by
  have hp : lowerStr (pyStrip "OfferUp".toList) = "offerup".toList := by decide
  have h1 : ("offerup".toList = "ebay".toList) = False := by decide
  have h2 : ("offerup".toList = "facebook marketplace".toList ∨
      "offerup".toList = "facebook".toList) = False := by decide
  have h3 : ("offerup".toList = "mercari".toList) = False := by decide
  simp only [platform_description, hp, h1, h2, h3, if_false, eq_self_iff_true,
    if_true]
  rw [if_neg (show ¬(([] : Str) ≠ []) by simp)]
  intro h
  have h94 : MARKER.length = 94 := by decide
  have hdash1 : ¬ MARKER <:+: ['-'] := not_infix_of_longer (by decide)
  have h' := infix_of_infix_pyStrip h
  obtain ⟨l, hl, hMl⟩ := infix_join_lines (by decide) (by decide) _ h'
  simp only [List.append_nil, List.mem_append, List.mem_cons,
    List.not_mem_nil, or_false] at hl
  rcases hl with ((((hl | hl) | hl) | hl) | hl) | hl
  · rcases hl with rfl | rfl
    · exact not_infix_of_longer (by omega) hMl
    · exact not_infix_of_longer (by simp; omega) hMl
  · subst hl
    have h11 : ("Condition: ".toList).length = 11 := by decide
    refine not_infix_of_longer ?_ hMl
    rw [List.length_append, h11, h94]
    omega
  · rcases mem_ite_list hl with hl | hl
    · rcases List.mem_cons.1 hl with rfl | hl
      · exact not_infix_of_longer (by simp; omega) hMl
      · rcases List.mem_cons.1 hl with rfl | hl
        · exact not_infix_of_longer (by decide) hMl
        · obtain ⟨x, hx, rfl⟩ := List.mem_map.1 hl
          exact not_infix_line (hfeat x hx) bulletChars
            (noSpanB_spec (by decide)) (by decide) hMl
    · exact absurd hl (List.not_mem_nil l)
  · rcases mem_ite_list hl with hl | hl
    · rcases List.mem_cons.1 hl with rfl | hl
      · exact not_infix_of_longer (by simp; omega) hMl
      · rcases List.mem_cons.1 hl with rfl | hl
        · exact not_infix_of_longer (by decide) hMl
        · obtain ⟨x, hx, rfl⟩ := List.mem_map.1 hl
          exact not_infix_line (hdef x hx) bulletChars
            (noSpanB_spec (by decide)) (by decide) hMl
    · exact absurd hl (List.not_mem_nil l)
  · subst hl
    exact not_infix_of_longer (by simp; omega) hMl
  · rcases hl with rfl | rfl
    · exact not_infix_line (not_infix_pyOr hb hdash1) "Pickup: ".toList
        (noSpanB_spec (by decide)) (by decide) hMl
    · exact not_infix_line (not_infix_pyOr ha hdash1) "Location: ".toList
        (noSpanB_spec (by decide)) (by decide) hMl

lemma append_tmpl_clean {D : List Str} {T : Str} (P : Prop) [Decidable P]
    (hD : ∀ x ∈ D, ¬ MARKER <:+: x) (hT : ¬ MARKER <:+: T) :
    ∀ x ∈ (if P then D ++ [T] else D), ¬ MARKER <:+: x := by
  intro x hx
  split at hx
  · rcases List.mem_append.1 hx with hx | hx
    · exact hD x hx
    · simp only [List.mem_singleton] at hx
      subst hx
      exact hT
  · exact hD x hx

lemma el_le (platform : Str) :
    (if lowerStr (pyStrip platform) = "ebay".toList then (80 : Nat) else 90)
      ≤ 90 := by
  split_ifs <;> omega

lemma payload_pos_ebay (brand item model category : Str) (qty : Int)
    (fl dl city pick ship hand ret : Str) (u : Bool) :
    PARTS_NOTE <:+: (build_listing_payload "eBay".toList brand item model
      "For parts/repair".toList category qty fl dl city pick ship hand ret
      true u).desc := by
  simp only [build_listing_payload, eq_self_iff_true, and_self, if_true]
  exact ebay_note_pos _ _ _ _ _ _ _ _ _ _ _

lemma payload_pos_fb (brand item model category : Str) (qty : Int)
    (fl dl city pick ship hand ret : Str) (u : Bool) :
    replace_double_star PARTS_NOTE <:+:
      (build_listing_payload "Facebook Marketplace".toList brand item model
        "For parts/repair".toList category qty fl dl city pick ship hand ret
        true u).desc := by
  simp only [build_listing_payload, eq_self_iff_true, and_self, if_true]
  exact fb_note_pos _ _ _ _ _ _ _ _ _ _ _

lemma payload_pos_mercari (brand item model category : Str) (qty : Int)
    (fl dl city pick ship hand ret : Str) (u : Bool) :
    replace_double_star PARTS_NOTE <:+:
      (build_listing_payload "Mercari".toList brand item model
        "For parts/repair".toList category qty fl dl city pick ship hand ret
        true u).desc := by
  simp only [build_listing_payload, eq_self_iff_true, and_self, if_true]
  exact mercari_note_pos _ _ _ _ _ _ _ _ _ _ _

lemma payload_pos_offerup (brand item model category : Str) (qty : Int)
    (fl dl city pick ship hand ret : Str) (u : Bool) :
    replace_double_star PARTS_NOTE <:+:
      (build_listing_payload "OfferUp".toList brand item model
        "For parts/repair".toList category qty fl dl city pick ship hand ret
        true u).desc := by
  simp only [build_listing_payload, eq_self_iff_true, and_self, if_true]
  exact offerup_note_pos _ _ _ _ _ _ _ _ _ _ _

lemma payload_no_marker_ebay (brand item model category : Str) (qty : Int)
    (fl dl city pick ship hand ret : Str) (u : Bool)
    (hfl : ¬ MARKER <:+: fl) (hdl : ¬ MARKER <:+: dl)
    (hcat : ¬ MARKER <:+: category) (hcity : ¬ MARKER <:+: city)
    (hpick : ¬ MARKER <:+: pick) (hship : ¬ MARKER <:+: ship)
    (hhand : ¬ MARKER <:+: hand) (hret : ¬ MARKER <:+: ret) :
    ¬ MARKER <:+: (build_listing_payload "eBay".toList brand item model
      "For parts/repair".toList category qty fl dl city pick ship hand ret
      false u).desc := by
  have hCT : CONDITION_TEMPLATES "For parts/repair".toList =
      some "For parts/repair. Sold as-is. No returns.".toList := by decide
  rcases hvs : build_title_variants "eBay".toList brand item model
      "For parts/repair".toList fl 6 with _ | ⟨⟨lab, t⟩, rest⟩
  · simp only [build_listing_payload, hCT, hvs, Bool.false_eq_true, false_and,
      if_false]
    exact ebay_no_marker _ _ _ _ _ _ _ _ _ _ _ (by decide)
      (not_infix_of_lines hfl)
      (append_tmpl_clean _ (not_infix_of_lines hdl)
        (not_infix_of_longer (by decide)))
      (not_infix_of_longer (by decide)) hcat hcity hpick hship hhand hret
  · obtain ⟨-, -, -, -, h5⟩ := title_variants_props "eBay".toList brand item
      model "For parts/repair".toList fl
    rw [hvs] at h5
    simp only [List.headD_cons] at h5
    have htitle : t.length ≤ 90 := le_trans (by simpa using h5) (el_le _)
    simp only [build_listing_payload, hCT, hvs, Bool.false_eq_true, false_and,
      if_false]
    exact ebay_no_marker _ _ _ _ _ _ _ _ _ _ _ htitle
      (not_infix_of_lines hfl)
      (append_tmpl_clean _ (not_infix_of_lines hdl)
        (not_infix_of_longer (by decide)))
      (not_infix_of_longer (by decide)) hcat hcity hpick hship hhand hret

lemma payload_no_marker_fb (brand item model category : Str) (qty : Int)
    (fl dl city pick ship hand ret : Str) (u : Bool)
    (hfl : ¬ MARKER <:+: fl) (hdl : ¬ MARKER <:+: dl)
    (hcat : ¬ MARKER <:+: category) (hcity : ¬ MARKER <:+: city)
    (hpick : ¬ MARKER <:+: pick) (hship : ¬ MARKER <:+: ship)
    (hhand : ¬ MARKER <:+: hand) (hret : ¬ MARKER <:+: ret) :
    ¬ MARKER <:+: (build_listing_payload "Facebook Marketplace".toList brand
      item model "For parts/repair".toList category qty fl dl city pick ship
      hand ret false u).desc := by
  have hCT : CONDITION_TEMPLATES "For parts/repair".toList =
      some "For parts/repair. Sold as-is. No returns.".toList := by decide
  rcases hvs : build_title_variants "Facebook Marketplace".toList brand item
      model "For parts/repair".toList fl 6 with _ | ⟨⟨lab, t⟩, rest⟩
  · simp only [build_listing_payload, hCT, hvs, Bool.false_eq_true, false_and,
      if_false]
    exact fb_no_marker _ _ _ _ _ _ _ _ _ _ _ (by decide)
      (not_infix_of_lines hfl)
      (append_tmpl_clean _ (not_infix_of_lines hdl)
        (not_infix_of_longer (by decide)))
      (by decide) hcat hcity hpick hship hret
  · obtain ⟨-, -, -, -, h5⟩ := title_variants_props "Facebook Marketplace".toList
      brand item model "For parts/repair".toList fl
    rw [hvs] at h5
    simp only [List.headD_cons] at h5
    have htitle : t.length ≤ 90 := le_trans (by simpa using h5) (el_le _)
    simp only [build_listing_payload, hCT, hvs, Bool.false_eq_true, false_and,
      if_false]
    exact fb_no_marker _ _ _ _ _ _ _ _ _ _ _ htitle
      (not_infix_of_lines hfl)
      (append_tmpl_clean _ (not_infix_of_lines hdl)
        (not_infix_of_longer (by decide)))
      (by decide) hcat hcity hpick hship hret

lemma payload_no_marker_mercari (brand item model category : Str) (qty : Int)
    (fl dl city pick ship hand ret : Str) (u : Bool)
    (hfl : ¬ MARKER <:+: fl) (hdl : ¬ MARKER <:+: dl) :
    ¬ MARKER <:+: (build_listing_payload "Mercari".toList brand item model
      "For parts/repair".toList category qty fl dl city pick ship hand ret
      false u).desc := by
  have hCT : CONDITION_TEMPLATES "For parts/repair".toList =
      some "For parts/repair. Sold as-is. No returns.".toList := by decide
  rcases hvs : build_title_variants "Mercari".toList brand item model
      "For parts/repair".toList fl 6 with _ | ⟨⟨lab, t⟩, rest⟩
  · simp only [build_listing_payload, hCT, hvs, Bool.false_eq_true, false_and,
      if_false]
    exact mercari_no_marker _ _ _ _ _ _ _ _ _ _ _ (by decide)
      (not_infix_of_lines hfl)
      (append_tmpl_clean _ (not_infix_of_lines hdl)
        (not_infix_of_longer (by decide)))
      (by decide)
  · obtain ⟨-, -, -, -, h5⟩ := title_variants_props "Mercari".toList brand item
      model "For parts/repair".toList fl
    rw [hvs] at h5
    simp only [List.headD_cons] at h5
    have htitle : t.length ≤ 90 := le_trans (by simpa using h5) (el_le _)
    simp only [build_listing_payload, hCT, hvs, Bool.false_eq_true, false_and,
      if_false]
    exact mercari_no_marker _ _ _ _ _ _ _ _ _ _ _ htitle
      (not_infix_of_lines hfl)
      (append_tmpl_clean _ (not_infix_of_lines hdl)
        (not_infix_of_longer (by decide)))
      (by decide)

lemma payload_no_marker_offerup (brand item model category : Str) (qty : Int)
    (fl dl city pick ship hand ret : Str) (u : Bool)
    (hfl : ¬ MARKER <:+: fl) (hdl : ¬ MARKER <:+: dl)
    (hcity : ¬ MARKER <:+: city) (hpick : ¬ MARKER <:+: pick) :
    ¬ MARKER <:+: (build_listing_payload "OfferUp".toList brand item model
      "For parts/repair".toList category qty fl dl city pick ship hand ret
      false u).desc := by
  have hCT : CONDITION_TEMPLATES "For parts/repair".toList =
      some "For parts/repair. Sold as-is. No returns.".toList := by decide
  rcases hvs : build_title_variants "OfferUp".toList brand item model
      "For parts/repair".toList fl 6 with _ | ⟨⟨lab, t⟩, rest⟩
  · simp only [build_listing_payload, hCT, hvs, Bool.false_eq_true, false_and,
      if_false]
    exact offerup_no_marker _ _ _ _ _ _ _ _ _ _ _ (by decide)
      (not_infix_of_lines hfl)
      (append_tmpl_clean _ (not_infix_of_lines hdl)
        (not_infix_of_longer (by decide)))
      (by decide) hcity hpick
  · obtain ⟨-, -, -, -, h5⟩ := title_variants_props "OfferUp".toList brand item
      model "For parts/repair".toList fl
    rw [hvs] at h5
    simp only [List.headD_cons] at h5
    have htitle : t.length ≤ 90 := le_trans (by simpa using h5) (el_le _)
    simp only [build_listing_payload, hCT, hvs, Bool.false_eq_true, false_and,
      if_false]
    exact offerup_no_marker _ _ _ _ _ _ _ _ _ _ _ htitle
      (not_infix_of_lines hfl)
      (append_tmpl_clean _ (not_infix_of_lines hdl)
        (not_infix_of_longer (by decide)))
      (by decide) hcity hpick

set_option maxRecDepth 10000 in
/-- C8 counterexample (original claim): with the flag false, the description
can still contain the disclaimer, because the free-text defects field can
itself contain the disclaimer text (here: the plain rendering of the note). -/
theorem C8_flag_false_counterexample :
    replace_double_star PARTS_NOTE <:+:
      (build_listing_payload "Mercari".toList [] [] []
        "For parts/repair".toList [] 1 [] (replace_double_star PARTS_NOTE)
        [] [] [] [] [] false false).desc := by
  decide

/-- C8 (amended): for each of the four platform choices, with condition
exactly "For parts/repair": when the flag is true the description contains
the disclaimer (bold `PARTS_NOTE` for eBay, the star-stripped rendering for
the other platforms); and when the flag is false — provided no user-supplied
free-text field smuggles the disclaimer in — the description contains
neither the disclaimer's common core `MARKER` nor either rendering. -/
theorem C8_parts_note_amended (platform brand item model category : Str)
    (qty : Int) (fl dl city pick ship hand ret : Str) (u : Bool)
    (hplat : platform = "eBay".toList ∨
      platform = "Facebook Marketplace".toList ∨
      platform = "Mercari".toList ∨ platform = "OfferUp".toList)
    (hfl : ¬ MARKER <:+: fl) (hdl : ¬ MARKER <:+: dl)
    (hcat : ¬ MARKER <:+: category) (hcity : ¬ MARKER <:+: city)
    (hpick : ¬ MARKER <:+: pick) (hship : ¬ MARKER <:+: ship)
    (hhand : ¬ MARKER <:+: hand) (hret : ¬ MARKER <:+: ret) :
    ((if platform = "eBay".toList then PARTS_NOTE
      else replace_double_star PARTS_NOTE) <:+:
        (build_listing_payload platform brand item model
          "For parts/repair".toList category qty fl dl city pick ship hand ret
          true u).desc) ∧
    ¬ MARKER <:+:
        (build_listing_payload platform brand item model
          "For parts/repair".toList category qty fl dl city pick ship hand ret
          false u).desc ∧
    ¬ PARTS_NOTE <:+:
        (build_listing_payload platform brand item model
          "For parts/repair".toList category qty fl dl city pick ship hand ret
          false u).desc ∧
    ¬ replace_double_star PARTS_NOTE <:+:
        (build_listing_payload platform brand item model
          "For parts/repair".toList category qty fl dl city pick ship hand ret
          false u).desc := by
  have hMP : MARKER <:+: PARTS_NOTE := List.IsSuffix.isInfix (by decide)
  have hMR : MARKER <:+: replace_double_star PARTS_NOTE :=
    List.IsSuffix.isInfix (by decide)
  rcases hplat with rfl | rfl | rfl | rfl
  · have hnm := payload_no_marker_ebay brand item model category qty fl dl
      city pick ship hand ret u hfl hdl hcat hcity hpick hship hhand hret
    refine ⟨?_, hnm, fun hc => hnm (hMP.trans hc),
      fun hc => hnm (hMR.trans hc)⟩
    rw [if_pos rfl]
    exact payload_pos_ebay brand item model category qty fl dl city pick ship
      hand ret u
  · have hnm := payload_no_marker_fb brand item model category qty fl dl
      city pick ship hand ret u hfl hdl hcat hcity hpick hship hhand hret
    refine ⟨?_, hnm, fun hc => hnm (hMP.trans hc),
      fun hc => hnm (hMR.trans hc)⟩
    rw [if_neg (by decide)]
    exact payload_pos_fb brand item model category qty fl dl city pick
      ship hand ret u
  · have hnm := payload_no_marker_mercari brand item model category qty fl dl
      city pick ship hand ret u hfl hdl
    refine ⟨?_, hnm, fun hc => hnm (hMP.trans hc),
      fun hc => hnm (hMR.trans hc)⟩
    rw [if_neg (by decide)]
    exact payload_pos_mercari brand item model category qty fl dl city pick
      ship hand ret u
  · have hnm := payload_no_marker_offerup brand item model category qty fl dl
      city pick ship hand ret u hfl hdl hcity hpick
    refine ⟨?_, hnm, fun hc => hnm (hMP.trans hc),
      fun hc => hnm (hMR.trans hc)⟩
    rw [if_neg (by decide)]
    exact payload_pos_offerup brand item model category qty fl dl city pick
      ship hand ret u

/-- Witness for C8 at a concrete eBay input with clean free-text fields. -/
theorem C8_parts_note_amended_witness :
    (("eBay".toList = "eBay".toList ∨
      "eBay".toList = "Facebook Marketplace".toList ∨
      "eBay".toList = "Mercari".toList ∨ "eBay".toList = "OfferUp".toList) ∧
     ¬ MARKER <:+: "16GB RAM".toList ∧ ¬ MARKER <:+: "scratched lid".toList ∧
     ¬ MARKER <:+: "Electronics".toList ∧ ¬ MARKER <:+: "Austin".toList ∧
     ¬ MARKER <:+: "Porch pickup".toList ∧ ¬ MARKER <:+: "USPS".toList ∧
     ¬ MARKER <:+: "2 days".toList ∧ ¬ MARKER <:+: "No returns".toList) ∧
    ((if "eBay".toList = "eBay".toList then PARTS_NOTE
      else replace_double_star PARTS_NOTE) <:+:
        (build_listing_payload "eBay".toList "Apple".toList "iPad".toList []
          "For parts/repair".toList "Electronics".toList 1 "16GB RAM".toList
          "scratched lid".toList "Austin".toList "Porch pickup".toList
          "USPS".toList "2 days".toList "No returns".toList true true).desc) ∧
    ¬ MARKER <:+:
        (build_listing_payload "eBay".toList "Apple".toList "iPad".toList []
          "For parts/repair".toList "Electronics".toList 1 "16GB RAM".toList
          "scratched lid".toList "Austin".toList "Porch pickup".toList
          "USPS".toList "2 days".toList "No returns".toList false true).desc ∧
    ¬ PARTS_NOTE <:+:
        (build_listing_payload "eBay".toList "Apple".toList "iPad".toList []
          "For parts/repair".toList "Electronics".toList 1 "16GB RAM".toList
          "scratched lid".toList "Austin".toList "Porch pickup".toList
          "USPS".toList "2 days".toList "No returns".toList false true).desc ∧
    ¬ replace_double_star PARTS_NOTE <:+:
        (build_listing_payload "eBay".toList "Apple".toList "iPad".toList []
          "For parts/repair".toList "Electronics".toList 1 "16GB RAM".toList
          "scratched lid".toList "Austin".toList "Porch pickup".toList
          "USPS".toList "2 days".toList "No returns".toList false true).desc :=
  ⟨⟨by decide, by decide, by decide, by decide, by decide, by decide,
    by decide, by decide, by decide⟩,
   C8_parts_note_amended "eBay".toList "Apple".toList "iPad".toList []
     "Electronics".toList 1 "16GB RAM".toList "scratched lid".toList
     "Austin".toList "Porch pickup".toList "USPS".toList "2 days".toList
     "No returns".toList true (by decide) (by decide) (by decide) (by decide)
     (by decide) (by decide) (by decide) (by decide) (by decide)⟩

end App
